import Mathlib

/-!
Shallow embedding of the live-quiz backend (src/app.py).

Timestamps are modelled as integers (whole seconds); the one place the code
does real-number arithmetic on time differences, the scoring bonus of
finish_question_if_due, is modelled with exact rational arithmetic on the
integer inputs.  The durable Postgres store is
modelled as lists of room / player / answer records; the ephemeral process
state (socket_index, rate_limits) is carried in a Config record.  Store
mutations are pure state transformers; emitted socket events are collected in
a list.  Python exceptions that can escape a handler are modelled either with
Except or with an explicit crash flag, as noted at each definition.
-/

namespace LiveQuiz

/-- Timestamps: whole seconds since epoch. -/
abbrev Time := ℤ

/-- Room lifecycle states as written to the rooms.state column by app.py. -/
inductive RoomState where
  | LOBBY
  | QUESTION
  | RESULTS
  | FINISHED
deriving DecidableEq, Repr

/-- One entry of the QUESTIONS list in app.py. -/
structure Question where
  text : String
  options : List String
  correct_index : Int
  duration : Int
deriving DecidableEq, Repr

/-- The hard-coded demo question list of app.py. -/
def QUESTIONS : List Question :=
  [ { text := "Скільки буде 2 + 2 ?"
      options := ["3", "4", "5", "6"]
      correct_index := 1
      duration := 15 }
  , { text := "Столиця України?"
      options := ["Львів", "Харків", "Київ", "Одеса"]
      correct_index := 2
      duration := 15 } ]

/-- QUESTIONS[i] guarded by the pattern `0 <= q_index < len(QUESTIONS)`. -/
def questionAt (i : Int) : Option Question :=
  if 0 ≤ i then QUESTIONS[i.toNat]? else none

-- Configuration constants of app.py.
def ROOM_TTL_SECONDS : Time := 600
def MAX_PLAYERS_PER_ROOM : Nat := 50
def JOIN_RATE_LIMIT : Nat := 5
def JOIN_RATE_WINDOW : Time := 10
def ANSWER_RATE_LIMIT : Nat := 3
def ANSWER_RATE_WINDOW : Time := 3
def CREATE_ROOM_LIMIT : Nat := 3
def CREATE_ROOM_WINDOW : Time := 60

/-- One row of the rooms table. -/
structure Room where
  id : Nat
  pin : String
  host_token : String
  state : RoomState
  current_question_index : Int
  question_started_at : Option Time
  question_ends_at : Option Time
  host_connected : Bool
  host_disconnected_at : Option Time
  created_at : Time
  last_activity_at : Time
  closed_at : Option Time
deriving DecidableEq, Repr

/-- One row of the players table. -/
structure Player where
  id : Nat
  room_id : Nat
  player_token : String
  name : String
  score : Int
  connected : Bool
  created_at : Time
  last_seen_at : Time
deriving DecidableEq, Repr

/-- One row of the answers table. -/
structure Answer where
  id : Nat
  room_id : Nat
  player_token : String
  question_index : Int
  option_index : Int
  answered_at : Time
deriving DecidableEq, Repr

/-- The durable Postgres store. -/
structure Store where
  rooms : List Room
  players : List Player
  answers : List Answer
deriving DecidableEq, Repr

/-- One socket_index entry: socket_index[sid] = \x7b"pin", "role", "token"\x7d. -/
structure Meta where
  pin : String
  role : String
  token : String
deriving DecidableEq, Repr

/-- The ephemeral socket_index dict, keyed by socket sid. -/
abbrev SocketIndex := List (String × Meta)

/-- The ephemeral rate_limits dict: key to list of admitted timestamps. -/
abbrev RateState := List (String × List Time)

/-- The whole mutable state of the process: durable store + ephemeral dicts. -/
structure Config where
  store : Store
  idx : SocketIndex
  rate : RateState
deriving DecidableEq, Repr

/-- One leaderboard entry as produced by leaderboard_for_room_id. -/
structure LBEntry where
  name : String
  score : Int
  connected : Bool
deriving DecidableEq, Repr

/-- The question part of a hydration payload. -/
structure QPayload where
  text : String
  options : List String
  ends_at : Time
deriving DecidableEq, Repr

/-- The results part of a hydration payload. -/
structure RPayload where
  correct_index : Int
  leaderboard : List LBEntry
deriving DecidableEq, Repr

/-- Payload of the "reconnected" event sent to a reconnecting player. -/
structure PlayerPayload where
  state : RoomState
  score : Int
  current_question_index : Int
  question : Option QPayload
  results : Option RPayload
deriving DecidableEq, Repr

/-- Payload of the "host_reconnected" event. -/
structure HostPayload where
  state : RoomState
  current_question_index : Int
  players : List LBEntry
  question : Option QPayload
  results : Option RPayload
deriving DecidableEq, Repr

/-- Socket events emitted by the handlers (unicast and broadcast together). -/
inductive Event where
  | error_msg (message : String)
  | join_error (message : String)
  | reconnect_error (message : String)
  | room_created (pin : String) (host_token : String)
  | joined (player_token : String)
  | player_joined (name : String)
  | reconnected (payload : PlayerPayload)
  | host_reconnected (payload : HostPayload)
  | question_started (index : Int) (text : String) (options : List String) (ends_at : Time)
  | question_results (correct_index : Int) (leaderboard : List LBEntry)
  | game_finished (leaderboard : List LBEntry)
  | room_closed (reason : String)
deriving DecidableEq, Repr

-- ---------------------------------------------------------------------------
-- Rate limiting (is_rate_limited): pure core acting on one bucket.
-- ---------------------------------------------------------------------------

/-- is_rate_limited of app.py, acting on the bucket for one key.  Returns the
denial decision together with the updated bucket: expired timestamps are
discarded in place, and the current timestamp is appended when admitted. -/
def is_rate_limited (bucket : List Time) (now : Time) (limit : Nat) (window : Time) :
    Bool × List Time :=
  let kept := bucket.filter (fun t => decide (now - t < window))
  if limit ≤ kept.length then (true, kept) else (false, kept ++ [now])

/-- Bucket lookup with the setdefault-[] semantics of app.py. -/
def rateGet (rs : RateState) (k : String) : List Time :=
  ((rs.find? (fun e => decide (e.1 = k))).map (fun e => e.2)).getD []

/-- Write a bucket back under its key. -/
def rateSet (rs : RateState) (k : String) (b : List Time) : RateState :=
  (k, b) :: rs.filter (fun e => decide (e.1 ≠ k))

/-- is_rate_limited lifted to the whole rate_limits dict. -/
def rateCheck (rs : RateState) (k : String) (now : Time) (limit : Nat) (window : Time) :
    Bool × RateState :=
  let r := is_rate_limited (rateGet rs k) now limit window
  (r.1, rateSet rs k r.2)

/-- Repeated calls of is_rate_limited on one bucket: returns the final bucket
and the list of denial decisions, one per attempt. -/
def runLimiter (limit : Nat) (window : Time) : List Time → List Time → List Time × List Bool
  | [], b => (b, [])
  | t :: ts, b =>
    let r := is_rate_limited b t limit window
    let rest := runLimiter limit window ts r.2
    (rest.1, r.1 :: rest.2)

-- ---------------------------------------------------------------------------
-- Store helpers.
-- ---------------------------------------------------------------------------

/-- require_room_state of app.py (states are already canonical upper case). -/
def require_room_state (room : Room) (allowed : List RoomState) : Bool :=
  allowed.any (fun st => decide (room.state = st))

/-- SELECT * FROM rooms WHERE pin=%s AND closed_at IS NULL (first row). -/
def get_room_by_pin (s : Store) (pin : String) : Option Room :=
  s.rooms.find? (fun r => decide (r.pin = pin ∧ r.closed_at = none))

/-- UPDATE rooms SET ... WHERE id=%s, as a map over the rooms list. -/
def updateRoomById (s : Store) (rid : Nat) (f : Room → Room) : Store :=
  { s with rooms := s.rooms.map (fun r => if r.id = rid then f r else r) }

/-- touch_room_activity of app.py. -/
def touch_room_activity (s : Store) (rid : Nat) (now : Time) : Store :=
  updateRoomById s rid (fun r => { r with last_activity_at := now })

/-- Insertion sort (stable) with a boolean precedes-relation. -/
def insertSorted {α : Type} (le : α → α → Bool) (x : α) : List α → List α
  | [] => [x]
  | y :: ys => if le x y then x :: y :: ys else y :: insertSorted le x ys

/-- Sort a list with a boolean precedes-relation. -/
def sortBy {α : Type} (le : α → α → Bool) : List α → List α
  | [] => []
  | x :: xs => insertSorted le x (sortBy le xs)

/-- ORDER BY score DESC, created_at ASC. -/
def lbBefore (p q : Player) : Bool :=
  decide (q.score < p.score ∨ (p.score = q.score ∧ p.created_at ≤ q.created_at))

/-- leaderboard_for_room_id of app.py. -/
def leaderboard_for_room_id (s : Store) (rid : Nat) : List LBEntry :=
  (sortBy lbBefore (s.players.filter (fun p => decide (p.room_id = rid)))).map
    (fun p => { name := p.name, score := p.score, connected := p.connected })

/-- close_room of app.py: no state guard, sets closed_at and FINISHED, emits
only the room_closed broadcast. -/
def close_room (s : Store) (pin : String) (reason : String) (now : Time) :
    Store × List Event :=
  match get_room_by_pin s pin with
  | none => (s, [])
  | some room =>
    (updateRoomById s room.id
       (fun r => { r with closed_at := some now, state := RoomState.FINISHED,
                          last_activity_at := now }),
     [Event.room_closed reason])

-- ---------------------------------------------------------------------------
-- Scoring engine (the points loop of finish_question_if_due).
-- ---------------------------------------------------------------------------

/-- Python int() on a float: truncation toward zero, on exact rationals. -/
def ratTrunc (q : ℚ) : Int :=
  if 0 ≤ q then ⌊q⌋ else ⌈q⌉

/-- Points for one correct answer, exactly as computed in
finish_question_if_due: time_left clamped at 0, bonus =
int((time_left / max(1, duration)) * 500) clamped at 0, plus base 1000.
The division is exact rational arithmetic on the integer-second inputs. -/
def scorePoints (ends_at answered_at : Time) (duration : Int) : Int :=
  let t0 : Int := ends_at - answered_at
  let time_left : Int := if t0 < 0 then 0 else t0
  let raw : Int := ratTrunc ((time_left : ℚ) / ((max 1 duration : Int) : ℚ) * 500)
  let bonus : Int := if raw < 0 then 0 else raw
  1000 + bonus

/-- The scoring formula as the spec words it (section 4.4): time_left =
max(0, deadline - answered_at); bonus = floor((time_left / max(1, duration))
* 500) clamped to non-negative; points = 1000 + bonus. -/
def specPoints (deadline answered_at : Time) (duration : Int) : Int :=
  1000 + max 0 ⌊((max 0 (deadline - answered_at) : Int) : ℚ) / ((max 1 duration : Int) : ℚ) * 500⌋

/-- UPDATE players SET score = score + %s, last_seen_at=now()
WHERE room_id=%s AND player_token=%s. -/
def updatePlayerScore (ps : List Player) (rid : Nat) (token : String) (pts : Int)
    (now : Time) : List Player :=
  ps.map (fun p =>
    if p.room_id = rid ∧ p.player_token = token then
      { p with score := p.score + pts, last_seen_at := now }
    else p)

/-- The scoring loop of finish_question_if_due over the fetched answers.
ends_at is the question_ends_at of the row returned by the conditional
update; if it is NULL, Python raises a TypeError at the first correct answer
(modelled by the boolean crash flag; score updates committed before the crash
are kept). -/
def applyAnswers (ends_at : Option Time) (correct duration : Int) (rid : Nat)
    (now : Time) : List Answer → List Player → List Player × Bool
  | [], ps => (ps, false)
  | a :: rest, ps =>
    if a.option_index = correct then
      match ends_at with
      | none => (ps, true)
      | some ea =>
        applyAnswers ends_at correct duration rid now rest
          (updatePlayerScore ps rid a.player_token (scorePoints ea a.answered_at duration) now)
    else
      applyAnswers ends_at correct duration rid now rest ps

-- ---------------------------------------------------------------------------
-- Timeout finalization (finish_question_if_due).
-- ---------------------------------------------------------------------------

/-- The row returned by
UPDATE rooms SET state='RESULTS', ... WHERE id=%s AND state='QUESTION'
RETURNING ...; db_one yields the first returned row, none when the
conditional write affected no row.  The fields this row is used for
(id, current_question_index, question_ends_at) are not touched by the SET
clause, so the matching stored row is returned directly. -/
def lockReturning (s : Store) (rid : Nat) : Option Room :=
  s.rooms.find? (fun r => decide (r.id = rid ∧ r.state = RoomState.QUESTION))

/-- The row mutation of the same conditional UPDATE. -/
def lockRows (s : Store) (rid : Nat) (now : Time) : Store :=
  { s with
    rooms := s.rooms.map (fun r =>
      if r.id = rid ∧ r.state = RoomState.QUESTION then
        { r with state := RoomState.RESULTS, last_activity_at := now }
      else r) }

/-- Result of one finish_question_if_due invocation.  locked records whether
the conditional write affected a row; crashed records an escaped TypeError. -/
structure FinishResult where
  store : Store
  events : List Event
  locked : Bool
  crashed : Bool
deriving DecidableEq, Repr

/-- finish_question_if_due of app.py.  The advisory read at the top runs
against the snapshot sRead; the conditional write and everything after it run
against sWrite (the store as it is at the moment of the write, possibly
changed since the read by a concurrent executor).  The sequential call of the
program corresponds to sRead = sWrite. -/
def finish_question_if_due (pin : String) (sRead sWrite : Store) (now : Time) :
    FinishResult :=
  match get_room_by_pin sRead pin with
  | none => ⟨sWrite, [], false, false⟩
  | some room =>
    if ¬ require_room_state room [RoomState.QUESTION] then ⟨sWrite, [], false, false⟩
    else
      match room.question_ends_at with
      | none => ⟨sWrite, [], false, false⟩
      | some ea =>
        if now ≤ ea then ⟨sWrite, [], false, false⟩
        else
          match lockReturning sWrite room.id with
          | none => ⟨sWrite, [], false, false⟩
          | some locked =>
            let s1 := lockRows sWrite room.id now
            let room_id := locked.id
            let q_index := locked.current_question_index
            match questionAt q_index with
            | none => ⟨s1, [], true, false⟩
            | some question =>
              let correct := question.correct_index
              let duration := question.duration
              let answers := s1.answers.filter (fun a =>
                decide (a.room_id = room_id ∧ a.question_index = q_index))
              let scored := applyAnswers locked.question_ends_at correct duration
                room_id now answers s1.players
              let s2 := { s1 with players := scored.1 }
              if scored.2 then ⟨s2, [], true, true⟩
              else
                ⟨s2,
                 [Event.question_results correct (leaderboard_for_room_id s2 room_id)],
                 true, false⟩

/-- A sequence of finalize attempts on the same pin, run one after another
against the shared store: each attempt reads its own snapshot (first list
component) at its own time, and its write phase runs against the store as
left by the previous attempts.  Returns the final store and the number of
attempts whose conditional write affected a row. -/
def runFinalizes (pin : String) : List (Store × Time) → Store → Store × Nat
  | [], s => (s, 0)
  | a :: rest, s =>
    let r := finish_question_if_due pin a.1 s a.2
    let t := runFinalizes pin rest r.store
    (t.1, (if r.locked then 1 else 0) + t.2)

-- ---------------------------------------------------------------------------
-- Socket index helpers.
-- ---------------------------------------------------------------------------

/-- socket_index.get(sid). -/
def idxLookup (idx : SocketIndex) (sid : String) : Option Meta :=
  (idx.find? (fun e => decide (e.1 = sid))).map (fun e => e.2)

/-- socket_index[sid] = meta. -/
def idxInsert (idx : SocketIndex) (sid : String) (m : Meta) : SocketIndex :=
  (sid, m) :: idx.filter (fun e => decide (e.1 ≠ sid))

/-- socket_index.pop(sid, None), the removal part. -/
def idxRemove (idx : SocketIndex) (sid : String) : SocketIndex :=
  idx.filter (fun e => decide (e.1 ≠ sid))

-- ---------------------------------------------------------------------------
-- Event payload records sent by clients.  Missing dict keys are modelled as
-- none.  Player/host tokens are modelled as opaque strings; the outcome of
-- uuid.UUID(token) parsing is supplied by a uuidOk oracle parameter, and the
-- str(uuid.UUID(s)) round trip is taken as the identity (canonical inputs).
-- ---------------------------------------------------------------------------

structure HostData where
  pin : Option String
  host_token : Option String
deriving DecidableEq, Repr

structure ReconnectData where
  pin : Option String
  token : Option String
deriving DecidableEq, Repr

structure JoinData where
  pin : Option String
  name : Option String
deriving DecidableEq, Repr

/-- submit_answer input.  A present but non-integer option value (whose int()
conversion raises) is modelled as an absent option: both return silently
before any store access. -/
structure SubmitData where
  pin : Option String
  option : Option Int
  player_token : Option String
deriving DecidableEq, Repr

-- ---------------------------------------------------------------------------
-- Handlers.
-- ---------------------------------------------------------------------------

/-- verify_host_and_get_room of app.py: presented pin/host_token checked
against the stored room row, then the calling socket must be registered in
socket_index with role "host" and the same pin (the registry token is not
compared).  Returns the room on success together with the advisory events
emitted on failure. -/
def verify_host_and_get_room (s : Store) (idx : SocketIndex) (sid : String)
    (data : HostData) : Option Room × List Event :=
  match data.pin, data.host_token with
  | some pin, some tok =>
    match get_room_by_pin s pin with
    | none => (none, [Event.error_msg "Room not found"])
    | some room =>
      if room.host_token ≠ tok then (none, [Event.error_msg "Invalid host token"])
      else
        match idxLookup idx sid with
        | none => (none, [Event.error_msg "Host socket not registered. Reconnect host."])
        | some meta =>
          if meta.role ≠ "host" ∨ meta.pin ≠ pin then
            (none, [Event.error_msg "Host socket not registered. Reconnect host."])
          else (some room, [])
  | _, _ => (none, [Event.error_msg "Missing pin/host_token"])

/-- start_question of app.py. -/
def start_question (s : Store) (pin : String) (now : Time) : Store × List Event :=
  match get_room_by_pin s pin with
  | none => (s, [])
  | some room =>
    if ¬ require_room_state room [RoomState.LOBBY, RoomState.RESULTS] then (s, [])
    else
      match questionAt room.current_question_index with
      | none => (s, [])
      | some question =>
        let duration := question.duration
        let s1 := updateRoomById s room.id (fun r =>
          { r with state := RoomState.QUESTION,
                   question_started_at := some now,
                   question_ends_at := some (now + duration),
                   last_activity_at := now })
        match get_room_by_pin s1 pin with
        | none => (s1, [])
        | some room2 =>
          match room2.question_ends_at with
          | none => (s1, [])
          | some ea =>
            (s1, [Event.question_started room.current_question_index
                    question.text question.options ea])

/-- start_game of app.py. -/
def start_game (c : Config) (sid : String) (data : HostData) (now : Time) :
    Config × List Event :=
  match verify_host_and_get_room c.store c.idx sid data with
  | (none, evs) => (c, evs)
  | (some room, _) =>
    if ¬ require_room_state room [RoomState.LOBBY] then
      (c, [Event.error_msg "start_game allowed only in LOBBY"])
    else
      let s1 := updateRoomById c.store room.id (fun r =>
        { r with current_question_index := 0, last_activity_at := now })
      let r := start_question s1 room.pin now
      ({ c with store := r.1 }, r.2)

/-- next_question of app.py. -/
def next_question (c : Config) (sid : String) (data : HostData) (now : Time) :
    Config × List Event :=
  match verify_host_and_get_room c.store c.idx sid data with
  | (none, evs) => (c, evs)
  | (some room, _) =>
    if ¬ require_room_state room [RoomState.RESULTS] then
      (c, [Event.error_msg "next_question allowed only in RESULTS"])
    else
      let next_index := room.current_question_index + 1
      if (QUESTIONS.length : Int) ≤ next_index then
        let s1 := updateRoomById c.store room.id (fun r =>
          { r with state := RoomState.FINISHED, closed_at := some now,
                   last_activity_at := now })
        ({ c with store := s1 },
         [Event.game_finished (leaderboard_for_room_id s1 room.id)])
      else
        let s1 := updateRoomById c.store room.id (fun r =>
          { r with current_question_index := next_index, last_activity_at := now })
        let r := start_question s1 room.pin now
        ({ c with store := r.1 }, r.2)

/-- Fresh answers.id (BIGSERIAL). -/
def freshAnswerId (s : Store) : Nat :=
  s.answers.foldl (fun m a => max m (a.id + 1)) 0

/-- INSERT INTO answers ... ON CONFLICT (room_id, player_token, question_index)
DO NOTHING: an existing row with the same key is left untouched. -/
def insertAnswerOnConflictDoNothing (s : Store) (rid : Nat) (token : String)
    (qi opt : Int) (now : Time) : Store :=
  if s.answers.any (fun a =>
      decide (a.room_id = rid ∧ a.player_token = token ∧ a.question_index = qi)) then s
  else
    { s with answers := s.answers ++
        [{ id := freshAnswerId s, room_id := rid, player_token := token,
           question_index := qi, option_index := opt, answered_at := now }] }

/-- submit_answer of app.py.  Every rejection path is silent (no emit). -/
def submit_answer (uuidOk : String → Bool) (c : Config) (sid : String)
    (data : SubmitData) (now : Time) : Config × List Event :=
  let rc := rateCheck c.rate ("answer:" ++ sid) now ANSWER_RATE_LIMIT ANSWER_RATE_WINDOW
  let c1 : Config := { c with rate := rc.2 }
  if rc.1 then (c1, [])
  else
    match data.pin, data.option, data.player_token with
    | some pin, some opt, some tok =>
      match get_room_by_pin c1.store pin with
      | none => (c1, [])
      | some room =>
        if ¬ require_room_state room [RoomState.QUESTION] then (c1, [])
        else
          match idxLookup c1.idx sid with
          | none => (c1, [])
          | some meta =>
            if meta.role ≠ "player" ∨ meta.pin ≠ pin ∨ meta.token ≠ tok then (c1, [])
            else if ¬ uuidOk tok then (c1, [])
            else
              match questionAt room.current_question_index with
              | none => (c1, [])
              | some q =>
                if ¬ (0 ≤ opt ∧ opt < (q.options.length : Int)) then (c1, [])
                else
                  match room.question_ends_at with
                  | none => (c1, [])
                  | some ea =>
                    if ea < now then (c1, [])
                    else
                      let s1 := insertAnswerOnConflictDoNothing c1.store room.id tok
                        room.current_question_index opt now
                      let s2 := touch_room_activity s1 room.id now
                      ({ c1 with store := s2 }, [])
    | _, _, _ => (c1, [])

/-- SELECT * FROM players WHERE room_id=%s AND player_token=%s. -/
def findPlayer (s : Store) (rid : Nat) (token : String) : Option Player :=
  s.players.find? (fun p => decide (p.room_id = rid ∧ p.player_token = token))

/-- The hydration payload built by reconnect_player, from the room and player
rows read before the liveness updates and the leaderboard read after them. -/
def mkPlayerPayload (s2 : Store) (room : Room) (player : Player) : PlayerPayload :=
  { state := room.state
    score := player.score
    current_question_index := room.current_question_index
    question :=
      match room.question_ends_at with
      | some ea =>
        if room.state = RoomState.QUESTION then
          match questionAt room.current_question_index with
          | some q => some { text := q.text, options := q.options, ends_at := ea }
          | none => none
        else none
      | none => none
    results :=
      if room.state = RoomState.RESULTS then
        match questionAt room.current_question_index with
        | some q => some { correct_index := q.correct_index,
                           leaderboard := leaderboard_for_room_id s2 room.id }
        | none => none
      else none }

/-- reconnect_player of app.py. -/
def reconnect_player (uuidOk : String → Bool) (c : Config) (sid : String)
    (data : ReconnectData) (now : Time) : Config × List Event :=
  match data.pin, data.token with
  | some pin, some tokS =>
    match get_room_by_pin c.store pin with
    | none => (c, [Event.reconnect_error "Room not found"])
    | some room =>
      if ¬ uuidOk tokS then (c, [Event.reconnect_error "Invalid token"])
      else
        match findPlayer c.store room.id tokS with
        | none => (c, [Event.reconnect_error "Player not found"])
        | some player =>
          let s1 : Store := { c.store with
            players := c.store.players.map (fun p =>
              if p.id = player.id then { p with connected := true, last_seen_at := now }
              else p) }
          let s2 := touch_room_activity s1 room.id now
          let idx1 := idxInsert c.idx sid { pin := pin, role := "player", token := tokS }
          ({ c with store := s2, idx := idx1 },
           [Event.reconnected (mkPlayerPayload s2 room player)])
  | _, _ => (c, [Event.reconnect_error "Missing data"])

/-- The hydration payload built by reconnect_host. -/
def mkHostPayload (s1 : Store) (room : Room) : HostPayload :=
  { state := room.state
    current_question_index := room.current_question_index
    players := leaderboard_for_room_id s1 room.id
    question :=
      match room.question_ends_at with
      | some ea =>
        if room.state = RoomState.QUESTION then
          match questionAt room.current_question_index with
          | some q => some { text := q.text, options := q.options, ends_at := ea }
          | none => none
        else none
      | none => none
    results :=
      if room.state = RoomState.RESULTS then
        match questionAt room.current_question_index with
        | some q => some { correct_index := q.correct_index,
                           leaderboard := leaderboard_for_room_id s1 room.id }
        | none => none
      else none }

/-- reconnect_host of app.py. -/
def reconnect_host (uuidOk : String → Bool) (c : Config) (sid : String)
    (data : ReconnectData) (now : Time) : Config × List Event :=
  match data.pin, data.token with
  | some pin, some tokS =>
    match get_room_by_pin c.store pin with
    | none => (c, [Event.reconnect_error "Room not found"])
    | some room =>
      if ¬ uuidOk tokS then (c, [Event.reconnect_error "Invalid host token"])
      else if room.host_token ≠ tokS then
        (c, [Event.reconnect_error "Invalid host token"])
      else
        let s1 := updateRoomById c.store room.id (fun r =>
          { r with host_connected := true, host_disconnected_at := none,
                   last_activity_at := now })
        let idx1 := idxInsert c.idx sid { pin := pin, role := "host", token := tokS }
        ({ c with store := s1, idx := idx1 },
         [Event.host_reconnected (mkHostPayload s1 room)])
  | _, _ => (c, [Event.reconnect_error "Missing data"])

/-- on_disconnect of app.py. -/
def on_disconnect (uuidOk : String → Bool) (c : Config) (sid : String) (now : Time) :
    Config :=
  match idxLookup c.idx sid with
  | none => c
  | some meta =>
    let c1 : Config := { c with idx := idxRemove c.idx sid }
    match get_room_by_pin c1.store meta.pin with
    | none => c1
    | some room =>
      if meta.role = "host" then
        { c1 with store := updateRoomById c1.store room.id (fun r =>
            { r with host_connected := false, host_disconnected_at := some now,
                     last_activity_at := now }) }
      else if meta.role = "player" then
        if ¬ uuidOk meta.token then c1
        else
          { c1 with store := { c1.store with
              players := c1.store.players.map (fun p =>
                if p.room_id = room.id ∧ p.player_token = meta.token then
                  { p with connected := false, last_seen_at := now }
                else p) } }
      else c1

/-- Fresh players.id (BIGSERIAL). -/
def freshPlayerId (s : Store) : Nat :=
  s.players.foldl (fun m p => max m (p.id + 1)) 0

/-- join_room handler (join_game) of app.py.  newToken is the uuid4 value
generated for the player. -/
def join_game (c : Config) (sid : String) (data : JoinData) (newToken : String)
    (now : Time) : Config × List Event :=
  let rc := rateCheck c.rate ("join:" ++ sid) now JOIN_RATE_LIMIT JOIN_RATE_WINDOW
  let c1 : Config := { c with rate := rc.2 }
  if rc.1 then (c1, [Event.join_error "Too many join attempts"])
  else
    match data.pin with
    | none => (c1, [Event.join_error "Invalid PIN"])
    | some pin =>
      if pin.length ≠ 6 then (c1, [Event.join_error "Invalid PIN"])
      else
        let name := (data.name.getD "").trim
        if name = "" ∨ 40 < name.length then (c1, [Event.join_error "Invalid name"])
        else
          match get_room_by_pin c1.store pin with
          | none => (c1, [Event.join_error "Room not found"])
          | some room =>
            if room.state = RoomState.FINISHED then
              (c1, [Event.join_error "Game finished"])
            else if MAX_PLAYERS_PER_ROOM ≤
                (c1.store.players.filter (fun p => decide (p.room_id = room.id))).length then
              (c1, [Event.join_error "Room is full"])
            else
              let s1 : Store := { c1.store with
                players := c1.store.players ++
                  [{ id := freshPlayerId c1.store, room_id := room.id,
                     player_token := newToken, name := name, score := 0,
                     connected := true, created_at := now, last_seen_at := now }] }
              let s2 := touch_room_activity s1 room.id now
              let idx1 := idxInsert c1.idx sid { pin := pin, role := "player", token := newToken }
              ({ c1 with store := s2, idx := idx1 },
               [Event.joined newToken, Event.player_joined name])

-- ---------------------------------------------------------------------------
-- Room creation (create_room, generate_unique_pin) and the pin constraint.
-- ---------------------------------------------------------------------------

/-- The loop body of generate_unique_pin over the list of pins the random
generator yields: return the first candidate with no OPEN room
(closed_at IS NULL) holding it, raise RuntimeError after the list runs out. -/
def generate_unique_pin_aux (s : Store) : List String → Except String String
  | [] => Except.error "Failed to generate unique PIN"
  | pin :: rest =>
    if s.rooms.any (fun r => decide (r.pin = pin ∧ r.closed_at = none)) then
      generate_unique_pin_aux s rest
    else Except.ok pin

/-- generate_unique_pin of app.py with max_tries = 20; gen i is the pin the
random generator produces on attempt i. -/
def generate_unique_pin (s : Store) (gen : Nat → String) : Except String String :=
  generate_unique_pin_aux s ((List.range 20).map gen)

/-- Fresh rooms.id (BIGSERIAL). -/
def freshRoomId (s : Store) : Nat :=
  s.rooms.foldl (fun m r => max m (r.id + 1)) 0

/-- The room row INSERTed by create_room. -/
def mkNewRoom (rid : Nat) (pin hostToken : String) (now : Time) : Room :=
  { id := rid, pin := pin, host_token := hostToken, state := RoomState.LOBBY,
    current_question_index := -1, question_started_at := none,
    question_ends_at := none, host_connected := true,
    host_disconnected_at := none, created_at := now, last_activity_at := now,
    closed_at := none }

/-- INSERT INTO rooms under the schema of ensure_tables: the pin column is
declared UNIQUE over ALL rows (open and closed alike), so an insert whose pin
equals the pin of any existing row raises a unique-constraint violation. -/
def insertRoom (s : Store) (r : Room) : Except String Store :=
  if s.rooms.any (fun r0 => decide (r0.pin = r.pin)) then
    Except.error "duplicate key value violates unique constraint on rooms.pin"
  else Except.ok { s with rooms := s.rooms ++ [r] }

/-- create_room of app.py.  gen supplies the random pins, hostToken the
uuid4 host token.  A RuntimeError from generate_unique_pin or a constraint
violation from the INSERT propagates out of the handler as Except.error. -/
def create_room (c : Config) (sid : String) (gen : Nat → String)
    (hostToken : String) (now : Time) : Except String (Config × List Event) :=
  let rc := rateCheck c.rate ("create:" ++ sid) now CREATE_ROOM_LIMIT CREATE_ROOM_WINDOW
  let c1 : Config := { c with rate := rc.2 }
  if rc.1 then Except.ok (c1, [Event.error_msg "Too many rooms created. Slow down."])
  else
    match generate_unique_pin c1.store gen with
    | Except.error e => Except.error e
    | Except.ok pin =>
      match insertRoom c1.store (mkNewRoom (freshRoomId c1.store) pin hostToken now) with
      | Except.error e => Except.error e
      | Except.ok s1 =>
        let idx1 := idxInsert c1.idx sid { pin := pin, role := "host", token := hostToken }
        Except.ok ({ c1 with store := s1, idx := idx1 },
                   [Event.room_created pin hostToken])

-- ---------------------------------------------------------------------------
-- Interleavings: the events the process can handle between two points.
-- ---------------------------------------------------------------------------

/-- One handler invocation, with its inputs and its wall-clock time. -/
inductive Op where
  | opSubmit (sid : String) (d : SubmitData) (now : Time)
  | opJoin (sid : String) (d : JoinData) (newToken : String) (now : Time)
  | opReconnectPlayer (sid : String) (d : ReconnectData) (now : Time)
  | opReconnectHost (sid : String) (d : ReconnectData) (now : Time)
  | opDisconnect (sid : String) (now : Time)
  | opStartGame (sid : String) (d : HostData) (now : Time)
  | opNextQuestion (sid : String) (d : HostData) (now : Time)
  | opFinish (pin : String) (now : Time)
deriving Repr

/-- Dispatch one Op to its handler (opFinish is the sequential call, read and
write phases against the same store, as the watchdog and host paths do). -/
def applyOp (uuidOk : String → Bool) (c : Config) : Op → Config × List Event
  | Op.opSubmit sid d now => submit_answer uuidOk c sid d now
  | Op.opJoin sid d tok now => join_game c sid d tok now
  | Op.opReconnectPlayer sid d now => reconnect_player uuidOk c sid d now
  | Op.opReconnectHost sid d now => reconnect_host uuidOk c sid d now
  | Op.opDisconnect sid now => (on_disconnect uuidOk c sid now, [])
  | Op.opStartGame sid d now => start_game c sid d now
  | Op.opNextQuestion sid d now => next_question c sid d now
  | Op.opFinish pin now =>
    let r := finish_question_if_due pin c.store c.store now
    ({ c with store := r.store }, r.events)

/-- Run a list of Ops in order. -/
def runOps (uuidOk : String → Bool) (c : Config) : List Op → Config
  | [] => c
  | op :: rest => runOps uuidOk (applyOp uuidOk c op).1 rest

-- ---------------------------------------------------------------------------
-- General list helper lemmas.
-- ---------------------------------------------------------------------------

theorem find?_congr_mem {α : Type} {l : List α} {p q : α → Bool}
    (h : ∀ x ∈ l, p x = q x) : l.find? p = l.find? q := by
  induction l with
  | nil => rfl
  | cons a t ih =>
    have ha := h a (List.mem_cons_self a t)
    cases hp : p a with
    | true =>
      rw [List.find?_cons_of_pos t hp, List.find?_cons_of_pos t (ha ▸ hp)]
    | false =>
      rw [List.find?_cons_of_neg t (by simp [hp]),
          List.find?_cons_of_neg t (by simp [← ha, hp])]
      exact ih (fun x hx => h x (List.mem_cons_of_mem a hx))

theorem find?_map_mem {α : Type} {l : List α} {g : α → α} {p : α → Bool}
    (h : ∀ x ∈ l, p (g x) = p x) : (l.map g).find? p = (l.find? p).map g := by
  rw [List.find?_map g l]
  have e : l.find? (p ∘ g) = l.find? p := find?_congr_mem (fun x hx => h x hx)
  rw [e]

-- ---------------------------------------------------------------------------
-- C8: the rate limiter.
-- ---------------------------------------------------------------------------

theorem runLimiter_all_ok (L : Nat) (W : Time) :
    ∀ (rest done : List Time),
      done.length + rest.length ≤ L →
      (∀ x ∈ done ++ rest, ∀ y ∈ done ++ rest, y - x < W) →
      runLimiter L W rest done = (done ++ rest, rest.map (fun _ => false)) := by
  intro rest
  induction rest with
  | nil => intro done _ _; simp [runLimiter]
  | cons t ts ih =>
    intro done hlen hspan
    have hlen1 : done.length + ts.length + 1 ≤ L := by
      simp only [List.length_cons] at hlen
      omega
    have hkeep : ∀ x ∈ done, decide (t - x < W) = true := by
      intro x hx
      simp only [decide_eq_true_eq]
      exact hspan x (List.mem_append_left _ hx)
        t (List.mem_append_right _ (List.mem_cons_self t ts))
    have hfilter : done.filter (fun x => decide (t - x < W)) = done :=
      List.filter_eq_self.mpr hkeep
    have hlt : ¬ L ≤ done.length := by omega
    have hstep : is_rate_limited done t L W = (false, done ++ [t]) := by
      simp only [is_rate_limited, hfilter]
      rw [if_neg hlt]
    have hassoc : (done ++ [t]) ++ ts = done ++ t :: ts := by simp
    have hrec := ih (done ++ [t])
      (by simp only [List.length_append, List.length_singleton]; omega)
      (by rw [hassoc]; exact hspan)
    simp only [runLimiter, hstep, hrec, hassoc, List.map_cons]

/-- C8: sliding-window limiter: (1) starting from an empty bucket, L attempts
whose timestamps all lie within one window W of each other are all admitted
and all get recorded; (2) with L recorded timestamps all still inside the
window, a further attempt is denied and the bucket is left exactly as it was
(nothing recorded); (3) once W has elapsed since the oldest recorded
timestamp, a new attempt is admitted again; (4) a denied attempt has no
observable side effect: any later call sees exactly the same decision and
bucket as if the denied attempt had never happened. -/
theorem c8_rate_limiter :
    (∀ (L : Nat) (W : Time) (ts : List Time),
       ts.length = L →
       (∀ x ∈ ts, ∀ y ∈ ts, y - x < W) →
       runLimiter L W ts [] = (ts, ts.map (fun _ => false))) ∧
    (∀ (L : Nat) (W : Time) (ts : List Time) (t : Time),
       ts.length = L →
       (∀ x ∈ ts, t - x < W) →
       is_rate_limited ts t L W = (true, ts)) ∧
    (∀ (L : Nat) (W : Time) (t1 tNew : Time) (rest : List Time),
       rest.length + 1 = L →
       W ≤ tNew - t1 →
       (is_rate_limited (t1 :: rest) tNew L W).1 = false) ∧
    (∀ (b : List Time) (t tLater : Time) (L : Nat) (W : Time),
       t ≤ tLater →
       (is_rate_limited b t L W).1 = true →
       is_rate_limited ((is_rate_limited b t L W).2) tLater L W
         = is_rate_limited b tLater L W) := by
  refine ⟨?_, ?_, ?_, ?_⟩
  · intro L W ts hlen hspan
    have := runLimiter_all_ok L W ts [] (by simp [hlen]) (by simpa using hspan)
    simpa using this
  · intro L W ts t hlen hin
    have hfilter : ts.filter (fun x => decide (t - x < W)) = ts :=
      List.filter_eq_self.mpr (fun x hx => by
        simp only [decide_eq_true_eq]; exact hin x hx)
    simp only [is_rate_limited, hfilter]
    rw [if_pos (le_of_eq hlen.symm)]
  · intro L W t1 tNew rest hlen hW
    have h1 : decide (tNew - t1 < W) = false := by
      simp only [decide_eq_false_iff_not, not_lt]; exact hW
    have hlenle : ((t1 :: rest).filter (fun x => decide (tNew - x < W))).length ≤
        rest.length := by
      rw [List.filter_cons, h1]
      simpa using List.length_filter_le _ rest
    have hlt : ¬ L ≤ ((t1 :: rest).filter (fun x => decide (tNew - x < W))).length := by
      omega
    simp only [is_rate_limited]
    rw [if_neg hlt]
  · intro b t tLater L W hle hdenied
    have hsnd : (is_rate_limited b t L W).2 = b.filter (fun x => decide (t - x < W)) := by
      simp only [is_rate_limited] at hdenied ⊢
      by_cases hc : L ≤ (b.filter (fun x => decide (t - x < W))).length
      · rw [if_pos hc]
      · rw [if_neg hc] at hdenied
        simp at hdenied
    rw [hsnd]
    have hff : (b.filter (fun x => decide (t - x < W))).filter
        (fun x => decide (tLater - x < W))
        = b.filter (fun x => decide (tLater - x < W)) := by
      rw [List.filter_filter]
      refine List.filter_congr (fun x _ => ?_)
      cases hl : decide (tLater - x < W) with
      | true =>
        have h1 : tLater - x < W := of_decide_eq_true hl
        have h2 : t - x < W := lt_of_le_of_lt (by linarith) h1
        simp [h1, h2]
      | false => simp [hl]
    simp only [is_rate_limited, hff]

/-- Witness for c8_rate_limiter at the answer-limiter configuration
(limit 3, window 3). -/
theorem c8_rate_limiter_witness :
    runLimiter 3 3 [0, 1, 2] [] = ([0, 1, 2], ([0, 1, 2] : List Time).map (fun _ => false)) ∧
    is_rate_limited [0, 1, 2] 2 3 3 = (true, [0, 1, 2]) ∧
    (is_rate_limited ((0 : Time) :: [1, 2]) 3 3 3).1 = false ∧
    is_rate_limited ((is_rate_limited [0, 1, 2] 2 3 3).2) 3 3 3
      = is_rate_limited [0, 1, 2] 3 3 3 :=
  ⟨c8_rate_limiter.1 3 3 [0, 1, 2] (by decide) (by decide),
   c8_rate_limiter.2.1 3 3 [0, 1, 2] 2 (by decide) (by decide),
   c8_rate_limiter.2.2.1 3 3 0 3 [1, 2] (by decide) (by decide),
   c8_rate_limiter.2.2.2 [0, 1, 2] 2 3 3 3 (by decide) (by decide)⟩

-- ---------------------------------------------------------------------------
-- C10: close_room.
-- ---------------------------------------------------------------------------

/-- C10: close_room resolves the room and then, with no guard on its current
state, stamps closed_at and FINISHED; it emits only the room_closed broadcast,
and players (hence scores) and answers are untouched, so an in-flight
QUESTION's answers are never scored. -/
theorem c10_close_room :
    ∀ (s : Store) (pin reason : String) (now : Time) (room : Room),
      get_room_by_pin s pin = some room →
      (close_room s pin reason now).2 = [Event.room_closed reason] ∧
      (close_room s pin reason now).1.players = s.players ∧
      (close_room s pin reason now).1.answers = s.answers ∧
      ((close_room s pin reason now).1.rooms = s.rooms.map (fun r =>
        if r.id = room.id then
          { r with closed_at := some now, state := RoomState.FINISHED,
                   last_activity_at := now }
        else r)) ∧
      (∀ r2 ∈ (close_room s pin reason now).1.rooms, r2.id = room.id →
        r2.state = RoomState.FINISHED ∧ r2.closed_at = some now) := by
  intro s pin reason now room h
  have hr : (close_room s pin reason now).1.rooms = s.rooms.map (fun r =>
      if r.id = room.id then
        { r with closed_at := some now, state := RoomState.FINISHED,
                 last_activity_at := now }
      else r) := by
    simp [close_room, h, updateRoomById]
  refine ⟨by simp [close_room, h], by simp [close_room, h, updateRoomById],
          by simp [close_room, h, updateRoomById], hr, ?_⟩
  intro r2 hmem hid
  rw [hr] at hmem
  rcases List.mem_map.mp hmem with ⟨r, _, hrr⟩
  by_cases hcase : r.id = room.id
  · rw [if_pos hcase] at hrr
    rw [← hrr]
    exact ⟨rfl, rfl⟩
  · rw [if_neg hcase] at hrr
    rw [← hrr] at hid
    exact absurd hid hcase

/-- Concrete room in mid-QUESTION state used to witness c10_close_room. -/
def c10Room : Room :=
  { id := 1, pin := "333333", host_token := "H", state := RoomState.QUESTION,
    current_question_index := 0, question_started_at := some 0,
    question_ends_at := some 15, host_connected := false,
    host_disconnected_at := some 1, created_at := 0, last_activity_at := 1,
    closed_at := none }

/-- Store holding c10Room, one player and one stored answer for the in-flight
question. -/
def c10Store : Store :=
  { rooms := [c10Room]
    players := [{ id := 1, room_id := 1, player_token := "P", name := "Alice",
                  score := 0, connected := true, created_at := 0, last_seen_at := 0 }]
    answers := [{ id := 1, room_id := 1, player_token := "P", question_index := 0,
                  option_index := 1, answered_at := 5 }] }

/-- Witness for c10_close_room: closing a room that is in QUESTION. -/
theorem c10_close_room_witness :
    c10Room.state = RoomState.QUESTION ∧
    get_room_by_pin c10Store "333333" = some c10Room ∧
    (close_room c10Store "333333" "host_timeout" 99).2
      = [Event.room_closed "host_timeout"] ∧
    (close_room c10Store "333333" "host_timeout" 99).1.players = c10Store.players ∧
    (close_room c10Store "333333" "host_timeout" 99).1.answers = c10Store.answers :=
  ⟨rfl, by decide,
   (c10_close_room c10Store "333333" "host_timeout" 99 c10Room (by decide)).1,
   (c10_close_room c10Store "333333" "host_timeout" 99 c10Room (by decide)).2.1,
   (c10_close_room c10Store "333333" "host_timeout" 99 c10Room (by decide)).2.2.1⟩

-- ---------------------------------------------------------------------------
-- C2: the scoring engine.
-- ---------------------------------------------------------------------------

/-- Total points the scoring loop awards to a player identified by room and
token: the sum of scorePoints over the stored answers of that player that hit
the correct option (at most one by the answers unique constraint). -/
def answerDelta (ea : Time) (correct dur : Int) (rid : Nat) (answers : List Answer)
    (proom : Nat) (ptok : String) : Int :=
  ((answers.filter (fun a =>
      decide (a.option_index = correct ∧ proom = rid ∧ a.player_token = ptok))).map
    (fun a => scorePoints ea a.answered_at dur)).sum

theorem answerDelta_cons_ne {a : Answer} {correct : Int} (h : ¬ a.option_index = correct)
    (ea : Time) (dur : Int) (rid : Nat) (rest : List Answer) (proom : Nat) (ptok : String) :
    answerDelta ea correct dur rid (a :: rest) proom ptok
      = answerDelta ea correct dur rid rest proom ptok := by
  simp [answerDelta, List.filter_cons, h]

theorem answerDelta_cons_eq {a : Answer} {correct : Int} (h : a.option_index = correct)
    (ea : Time) (dur : Int) (rid : Nat) (rest : List Answer) (proom : Nat) (ptok : String) :
    answerDelta ea correct dur rid (a :: rest) proom ptok
      = (if proom = rid ∧ a.player_token = ptok then scorePoints ea a.answered_at dur else 0)
        + answerDelta ea correct dur rid rest proom ptok := by
  by_cases hm : proom = rid ∧ a.player_token = ptok
  · simp [answerDelta, List.filter_cons, h, hm]
  · have hcond : ¬ (a.option_index = correct ∧ proom = rid ∧ a.player_token = ptok) := by
      intro hc; exact hm hc.2
    simp [answerDelta, List.filter_cons, hcond, hm]

theorem applyAnswers_no_crash (ea : Time) (correct dur : Int) (rid : Nat) (now : Time) :
    ∀ (answers : List Answer) (ps : List Player),
      (applyAnswers (some ea) correct dur rid now answers ps).2 = false := by
  intro answers
  induction answers with
  | nil => intro ps; rfl
  | cons a rest ih =>
    intro ps
    by_cases h : a.option_index = correct
    · simp only [applyAnswers, if_pos h]
      exact ih _
    · simp only [applyAnswers, if_neg h]
      exact ih _

theorem applyAnswers_scores (ea : Time) (correct dur : Int) (rid : Nat) (now : Time) :
    ∀ (answers : List Answer) (ps : List Player),
      (applyAnswers (some ea) correct dur rid now answers ps).1.map
          (fun p => (p.player_token, p.room_id, p.score))
        = ps.map (fun p => (p.player_token, p.room_id,
            p.score + answerDelta ea correct dur rid answers p.room_id p.player_token)) := by
  intro answers
  induction answers with
  | nil =>
    intro ps
    simp [applyAnswers, answerDelta]
  | cons a rest ih =>
    intro ps
    by_cases h : a.option_index = correct
    · simp only [applyAnswers, if_pos h]
      rw [ih (updatePlayerScore ps rid a.player_token (scorePoints ea a.answered_at dur) now)]
      simp only [updatePlayerScore, List.map_map]
      refine List.map_congr_left (fun p _ => ?_)
      by_cases hm : p.room_id = rid ∧ p.player_token = a.player_token
      · simp only [Function.comp, if_pos hm]
        rw [answerDelta_cons_eq h]
        rw [if_pos ⟨hm.1, hm.2.symm⟩]
        simp [add_assoc]
      · simp only [Function.comp, if_neg hm]
        rw [answerDelta_cons_eq h]
        have hm2 : ¬ (p.room_id = rid ∧ a.player_token = p.player_token) := by
          intro hc; exact hm ⟨hc.1, hc.2.symm⟩
        rw [if_neg hm2]
        simp
    · simp only [applyAnswers, if_neg h]
      rw [ih ps]
      refine List.map_congr_left (fun p _ => ?_)
      rw [answerDelta_cons_ne h]

theorem scorePoints_eq_specPoints (ea aa : Time) (dur : Int) :
    scorePoints ea aa dur = specPoints ea aa dur := by
  have htl : (if ea - aa < 0 then (0 : Int) else ea - aa) = max 0 (ea - aa) := by
    rcases lt_or_le (ea - aa) 0 with h | h
    · rw [if_pos h, max_eq_left h.le]
    · rw [if_neg (not_lt.mpr h), max_eq_right h]
  have hnum : (0 : ℚ) ≤ ((max 0 (ea - aa) : Int) : ℚ) := by
    exact_mod_cast le_max_left 0 (ea - aa)
  have hden : (0 : ℚ) ≤ ((max 1 dur : Int) : ℚ) := by
    have h1 : (0 : Int) ≤ max 1 dur := le_trans zero_le_one (le_max_left 1 dur)
    exact_mod_cast h1
  have harg : (0 : ℚ) ≤ ((max 0 (ea - aa) : Int) : ℚ) / ((max 1 dur : Int) : ℚ) * 500 :=
    mul_nonneg (div_nonneg hnum hden) (by norm_num)
  have hfl : (0 : Int) ≤ ⌊((max 0 (ea - aa) : Int) : ℚ) / ((max 1 dur : Int) : ℚ) * 500⌋ :=
    Int.floor_nonneg.mpr harg
  simp only [scorePoints, specPoints, ratTrunc, htl]
  rw [if_pos harg, if_neg (not_lt.mpr hfl), max_eq_right hfl]

theorem scorePoints_zero_left (ea : Time) (dur : Int) : scorePoints ea ea dur = 1000 := by
  simp [scorePoints, ratTrunc]

theorem scorePoints_full_left (ea : Time) : scorePoints ea (ea - 15) 15 = 1500 := by
  have h1 : ea - (ea - 15) = (15 : Int) := by ring
  have h2 : ¬ (15 : Int) < 0 := by norm_num
  have h3 : (max 1 15 : Int) = 15 := by norm_num
  simp only [scorePoints, ratTrunc, h1, if_neg h2, h3]
  norm_num

/-- C2: the scoring engine.  (1) The per-answer points computed by the loop of
finish_question_if_due equal the spec formula 1000 + clamp(floor(max(0,
ends_at − answered_at) / max(1, duration) * 500)); (2) every question of this
program has duration 15 (≥ 1); (3) a correct answer with zero time left earns
exactly 1000; (4) a correct answer with full duration left earns exactly 1500
at the program's duration 15; (5) the scoring loop never raises when the
deadline is present and adds to each player's cumulative score exactly the
points of that player's stored answers hitting the correct option, leaving
identity fields alone — in particular players with an incorrect or missing
answer gain zero. -/
theorem c2_scoring_engine :
    (∀ (ea aa : Time) (dur : Int), scorePoints ea aa dur = specPoints ea aa dur) ∧
    (QUESTIONS.map Question.duration = [15, 15]) ∧
    (∀ (ea : Time) (dur : Int), scorePoints ea ea dur = 1000) ∧
    (∀ ea : Time, scorePoints ea (ea - 15) 15 = 1500) ∧
    (∀ (ea : Time) (correct dur : Int) (rid : Nat) (now : Time)
       (answers : List Answer) (ps : List Player),
       (applyAnswers (some ea) correct dur rid now answers ps).2 = false ∧
       (applyAnswers (some ea) correct dur rid now answers ps).1.map
           (fun p => (p.player_token, p.room_id, p.score))
         = ps.map (fun p => (p.player_token, p.room_id,
             p.score + answerDelta ea correct dur rid answers p.room_id p.player_token))) :=
  ⟨scorePoints_eq_specPoints, rfl, scorePoints_zero_left, scorePoints_full_left,
   fun ea correct dur rid now answers ps =>
     ⟨applyAnswers_no_crash ea correct dur rid now answers ps,
      applyAnswers_scores ea correct dur rid now answers ps⟩⟩

-- ---------------------------------------------------------------------------
-- C9: pin uniqueness.
-- ---------------------------------------------------------------------------

/-- A closed room still holding pin 123456. -/
def c9Room : Room :=
  { id := 1, pin := "123456", host_token := "HT", state := RoomState.FINISHED,
    current_question_index := 1, question_started_at := none,
    question_ends_at := none, host_connected := false,
    host_disconnected_at := some 40, created_at := 0, last_activity_at := 40,
    closed_at := some 50 }

/-- Store whose only room is the closed c9Room. -/
def c9Store : Store := { rooms := [c9Room], players := [], answers := [] }

/-- C9 is a code bug: generate_unique_pin checks uniqueness only among open
rooms (closed_at IS NULL), so it happily hands out the pin of a closed room;
but the rooms DDL of ensure_tables declares pin UNIQUE over all rows, so the
INSERT of create_room then raises a unique-constraint violation instead of
reusing the pin.  Evaluated here at the failing input: one closed room with
pin 123456 and a generator that proposes 123456. -/
theorem c9_pin_reuse_bug :
    c9Store.rooms.map Room.closed_at = [some 50] ∧
    generate_unique_pin c9Store (fun _ => "123456") = Except.ok "123456" ∧
    insertRoom c9Store (mkNewRoom (freshRoomId c9Store) "123456" "HT2" 100)
      = Except.error "duplicate key value violates unique constraint on rooms.pin" ∧
    create_room { store := c9Store, idx := [], rate := [] } "s1"
        (fun _ => "123456") "HT2" 100
      = Except.error "duplicate key value violates unique constraint on rooms.pin" ∧
    (∀ (s : Store) (gen : Nat → String) (p : String),
       generate_unique_pin s gen = Except.ok p →
       ∀ r ∈ s.rooms, r.closed_at = none → r.pin ≠ p) := by
  refine ⟨rfl, by rfl, by rfl, by rfl, ?_⟩
  intro s gen p
  have haux : ∀ (cands : List String),
      generate_unique_pin_aux s cands = Except.ok p →
      ∀ r ∈ s.rooms, r.closed_at = none → r.pin ≠ p := by
    intro cands
    induction cands with
    | nil => intro h; exact absurd h (by simp [generate_unique_pin_aux])
    | cons q rest ih =>
      intro h r hr hopen hpin
      by_cases hex : s.rooms.any (fun r0 => decide (r0.pin = q ∧ r0.closed_at = none))
      · rw [generate_unique_pin_aux, if_pos hex] at h
        exact ih h r hr hopen hpin
      · rw [generate_unique_pin_aux, if_neg hex] at h
        have hqp : q = p := by injection h
        subst hqp
        apply hex
        rw [List.any_eq_true]
        exact ⟨r, hr, by simp [hpin, hopen]⟩
  intro h
  exact haux _ h

-- ---------------------------------------------------------------------------
-- Shared concrete fixtures.
-- ---------------------------------------------------------------------------

/-- A room in QUESTION with deadline 10. -/
def roomQ : Room :=
  { id := 1, pin := "111111", host_token := "H", state := RoomState.QUESTION,
    current_question_index := 0, question_started_at := some 0,
    question_ends_at := some 10, host_connected := true,
    host_disconnected_at := none, created_at := 0, last_activity_at := 0,
    closed_at := none }

/-- A player of roomQ. -/
def playerA : Player :=
  { id := 1, room_id := 1, player_token := "P", name := "Alice", score := 0,
    connected := true, created_at := 0, last_seen_at := 0 }

/-- Config with roomQ, playerA and the player socket registered. -/
def cfgQ : Config :=
  { store := { rooms := [roomQ], players := [playerA], answers := [] }
    idx := [("s1", { pin := "111111", role := "player", token := "P" })]
    rate := [] }

/-- The same room in LOBBY. -/
def roomL : Room := { roomQ with state := RoomState.LOBBY }

/-- Config with roomL, playerA and the player socket registered. -/
def cfgL : Config :=
  { store := { rooms := [roomL], players := [playerA], answers := [] }
    idx := [("s1", { pin := "111111", role := "player", token := "P" })]
    rate := [] }

-- ---------------------------------------------------------------------------
-- C3: answer submission guards.
-- ---------------------------------------------------------------------------

theorem require_single {room : Room} {st : RoomState} :
    require_room_state room [st] = true ↔ room.state = st := by
  simp [require_room_state]

/-- C3 counterexample: the code rejects an answer only when utc_now() is
STRICTLY past question_ends_at, so a submission arriving exactly at the
deadline is stored, contradicting the claim that a submission at or after
the deadline stores nothing. -/
theorem c3_counterexample :
    roomQ.question_ends_at = some 10 ∧
    ((submit_answer (fun _ => true) cfgQ "s1"
        { pin := some "111111", option := some 1, player_token := some "P" } 10).1.store.answers.map
      (fun a => (a.player_token, a.question_index, a.option_index)))
      = [("P", 0, 1)] := by
  constructor
  · rfl
  · decide

/-- Inversion for submit_answer: either the durable store is untouched, or
every guard passed (room resolved in QUESTION, registry triple matched,
deadline not yet strictly passed) and the store is the answer insert plus the
activity touch. -/
theorem submit_answer_cases (uuidOk : String → Bool) (c : Config) (sid : String)
    (d : SubmitData) (now : Time) :
    (submit_answer uuidOk c sid d now).1.store = c.store ∨
    ∃ pin opt tok room meta ea,
      d.pin = some pin ∧ d.option = some opt ∧ d.player_token = some tok ∧
      get_room_by_pin c.store pin = some room ∧
      room.state = RoomState.QUESTION ∧
      idxLookup c.idx sid = some meta ∧
      meta.role = "player" ∧ meta.pin = pin ∧ meta.token = tok ∧
      room.question_ends_at = some ea ∧ now ≤ ea ∧
      (submit_answer uuidOk c sid d now).1.store =
        touch_room_activity (insertAnswerOnConflictDoNothing c.store room.id tok
          room.current_question_index opt now) room.id now := by
  unfold submit_answer
  dsimp only
  repeat' split
  all_goals try (left; rfl)
  rename_i hrc x1 x2 x3 pin opt tok hpin hopt htok xr room hroom hst xm meta
    hmeta hm hu xq q hq hrange xe ea hea hlt
  right
  push_neg at hm
  exact ⟨pin, opt, tok, room, meta, ea, hpin, hopt, htok, hroom,
    require_single.mp (not_not.mp hst), hmeta, hm.1, hm.2.1, hm.2.2, hea,
    not_lt.mp hlt, rfl⟩

theorem answers_touch (s : Store) (rid : Nat) (now : Time) :
    (touch_room_activity s rid now).answers = s.answers := rfl

theorem answers_updateRoomById (s : Store) (rid : Nat) (f : Room → Room) :
    (updateRoomById s rid f).answers = s.answers := rfl

theorem mem_answers_insert (s : Store) (rid : Nat) (tok : String) (qi opt : Int)
    (now : Time) (a : Answer) (h : a ∈ s.answers) :
    a ∈ (insertAnswerOnConflictDoNothing s rid tok qi opt now).answers := by
  unfold insertAnswerOnConflictDoNothing
  split
  · exact h
  · exact List.mem_append_left _ h

theorem answers_start_question (s : Store) (pin : String) (now : Time) :
    (start_question s pin now).1.answers = s.answers := by
  unfold start_question
  dsimp only
  repeat' split
  all_goals rfl

theorem answers_finish (pin : String) (sRead sWrite : Store) (now : Time) :
    (finish_question_if_due pin sRead sWrite now).store.answers = sWrite.answers := by
  unfold finish_question_if_due
  dsimp only
  repeat' split
  all_goals rfl

theorem answers_start_game (c : Config) (sid : String) (d : HostData) (now : Time) :
    (start_game c sid d now).1.store.answers = c.store.answers := by
  unfold start_game
  dsimp only
  repeat' split
  all_goals try rfl
  all_goals simp only [answers_start_question, answers_updateRoomById]

theorem answers_next_question (c : Config) (sid : String) (d : HostData) (now : Time) :
    (next_question c sid d now).1.store.answers = c.store.answers := by
  unfold next_question
  dsimp only
  repeat' split
  all_goals try rfl
  all_goals simp only [answers_start_question, answers_updateRoomById]

theorem answers_join (c : Config) (sid : String) (d : JoinData) (tok : String)
    (now : Time) : (join_game c sid d tok now).1.store.answers = c.store.answers := by
  unfold join_game
  dsimp only
  repeat' split
  all_goals rfl

theorem answers_reconnect_player (uuidOk : String → Bool) (c : Config) (sid : String)
    (d : ReconnectData) (now : Time) :
    (reconnect_player uuidOk c sid d now).1.store.answers = c.store.answers := by
  unfold reconnect_player
  repeat' split
  all_goals rfl

theorem answers_reconnect_host (uuidOk : String → Bool) (c : Config) (sid : String)
    (d : ReconnectData) (now : Time) :
    (reconnect_host uuidOk c sid d now).1.store.answers = c.store.answers := by
  unfold reconnect_host
  repeat' split
  all_goals rfl

theorem answers_disconnect (uuidOk : String → Bool) (c : Config) (sid : String)
    (now : Time) :
    (on_disconnect uuidOk c sid now).store.answers = c.store.answers := by
  unfold on_disconnect
  dsimp only
  repeat' split
  all_goals dsimp only
  all_goals rfl

/-- C3 amended: an answer row is inserted only when the room resolves, its
state is QUESTION and now ≤ question_ends_at (rejection happens only strictly
after the deadline); and no handler ever removes or modifies a stored answer
row (close_room and the two-snapshot finalize included). -/
theorem c3_answer_guard :
    (∀ (uuidOk : String → Bool) (c : Config) (sid : String) (d : SubmitData) (now : Time),
       (submit_answer uuidOk c sid d now).1.store.answers ≠ c.store.answers →
       ∃ pin room ea, d.pin = some pin ∧ get_room_by_pin c.store pin = some room ∧
         room.state = RoomState.QUESTION ∧ room.question_ends_at = some ea ∧ now ≤ ea) ∧
    (∀ (uuidOk : String → Bool) (c : Config) (op : Op),
       ∀ a ∈ c.store.answers, a ∈ ((applyOp uuidOk c op).1).store.answers) ∧
    (∀ (s : Store) (pin reason : String) (now : Time),
       (close_room s pin reason now).1.answers = s.answers) ∧
    (∀ (pin : String) (sRead sWrite : Store) (now : Time),
       (finish_question_if_due pin sRead sWrite now).store.answers = sWrite.answers) := by
  refine ⟨?_, ?_, ?_, answers_finish⟩
  · intro uuidOk c sid d now h
    rcases submit_answer_cases uuidOk c sid d now with hsame |
      ⟨pin, opt, tok, room, meta, ea, hpin, hopt, htok, hroom, hstate, hmeta,
       hrole, hmp, hmt, hea, hle, hstore⟩
    · exact absurd (congrArg Store.answers hsame) h
    · exact ⟨pin, room, ea, hpin, hroom, hstate, hea, hle⟩
  · intro uuidOk c op a ha
    cases op with
    | opSubmit sid d now =>
      rcases submit_answer_cases uuidOk c sid d now with hsame |
        ⟨pin, opt, tok, room, meta, ea, _, _, _, _, _, _, _, _, _, _, _, hstore⟩
      · show a ∈ (submit_answer uuidOk c sid d now).1.store.answers
        rw [hsame]; exact ha
      · show a ∈ (submit_answer uuidOk c sid d now).1.store.answers
        rw [hstore, answers_touch]
        exact mem_answers_insert _ _ _ _ _ _ _ ha
    | opJoin sid d tok now =>
      show a ∈ (join_game c sid d tok now).1.store.answers
      rw [answers_join]; exact ha
    | opReconnectPlayer sid d now =>
      show a ∈ (reconnect_player uuidOk c sid d now).1.store.answers
      rw [answers_reconnect_player]; exact ha
    | opReconnectHost sid d now =>
      show a ∈ (reconnect_host uuidOk c sid d now).1.store.answers
      rw [answers_reconnect_host]; exact ha
    | opDisconnect sid now =>
      show a ∈ (on_disconnect uuidOk c sid now).store.answers
      rw [answers_disconnect]; exact ha
    | opStartGame sid d now =>
      show a ∈ (start_game c sid d now).1.store.answers
      rw [answers_start_game]; exact ha
    | opNextQuestion sid d now =>
      show a ∈ (next_question c sid d now).1.store.answers
      rw [answers_next_question]; exact ha
    | opFinish pin now =>
      show a ∈ (finish_question_if_due pin c.store c.store now).store.answers
      rw [answers_finish]; exact ha
  · intro s pin reason now
    unfold close_room
    split
    · rfl
    · rfl

-- ---------------------------------------------------------------------------
-- Inversion lemmas for the host actions.
-- ---------------------------------------------------------------------------

/-- submit_answer never emits an event: every rejection is silent and the
accept path only writes to the store. -/
theorem events_submit (uuidOk : String → Bool) (c : Config) (sid : String)
    (d : SubmitData) (now : Time) : (submit_answer uuidOk c sid d now).2 = [] := by
  unfold submit_answer
  dsimp only
  repeat' split
  all_goals rfl

/-- Inversion for verify_host_and_get_room: on success, the presented pin
resolved to the room, the presented secret equals the stored host_token, and
the calling socket is registered with role host and the same pin — the
REGISTERED token is not constrained. -/
theorem verify_cases (s : Store) (idx : SocketIndex) (sid : String) (d : HostData) :
    (verify_host_and_get_room s idx sid d).1 = none ∨
    ∃ pin tok meta room, d.pin = some pin ∧ d.host_token = some tok ∧
      get_room_by_pin s pin = some room ∧ room.host_token = tok ∧
      idxLookup idx sid = some meta ∧ meta.role = "host" ∧ meta.pin = pin ∧
      verify_host_and_get_room s idx sid d = (some room, []) := by
  unfold verify_host_and_get_room
  try dsimp only
  repeat' split
  all_goals try (left; rfl)
  rename_i x1 x2 pin tok hpin htok xr room hroom hne xm meta hmeta hm
  right
  push_neg at hm
  exact ⟨pin, tok, meta, room, hpin, htok, hroom, not_not.mp hne, hmeta,
    hm.1, hm.2, rfl⟩

/-- Inversion for start_game: it either leaves the whole Config unchanged or
verification succeeded, the room was in LOBBY, and the store advances through
the index write and start_question. -/
theorem start_game_cases (c : Config) (sid : String) (d : HostData) (now : Time) :
    (start_game c sid d now).1 = c ∨
    ∃ room, (verify_host_and_get_room c.store c.idx sid d).1 = some room ∧
      room.state = RoomState.LOBBY ∧
      (start_game c sid d now).1 = { c with store :=
        (start_question (updateRoomById c.store room.id (fun r =>
          { r with current_question_index := 0, last_activity_at := now }))
          room.pin now).1 } := by
  unfold start_game
  dsimp only
  repeat' split
  all_goals try (left; rfl)
  rename_i xp room xe hv hguard
  right
  refine ⟨room, by rw [hv], require_single.mp (not_not.mp hguard), rfl⟩

/-- Inversion for next_question, in the same style; on success the room was
in RESULTS and the store advances either to FINISHED or to the next
question. -/
theorem next_question_cases (c : Config) (sid : String) (d : HostData) (now : Time) :
    (next_question c sid d now).1 = c ∨
    ∃ room, (verify_host_and_get_room c.store c.idx sid d).1 = some room ∧
      room.state = RoomState.RESULTS ∧
      ((next_question c sid d now).1 = { c with
          store := updateRoomById c.store room.id (fun r =>
            { r with state := RoomState.FINISHED, closed_at := some now,
                     last_activity_at := now }) } ∨
       (next_question c sid d now).1 = { c with
          store := (start_question (updateRoomById c.store room.id (fun r =>
            { r with current_question_index := room.current_question_index + 1,
                     last_activity_at := now })) room.pin now).1 }) := by
  unfold next_question
  dsimp only
  repeat' split
  all_goals try (left; rfl)
  · rename_i xp room xe hv hguard hlast
    right
    exact ⟨room, by rw [hv], require_single.mp (not_not.mp hguard), Or.inl rfl⟩
  · rename_i xp room xe hv hguard hlast
    right
    exact ⟨room, by rw [hv], require_single.mp (not_not.mp hguard), Or.inr rfl⟩

-- ---------------------------------------------------------------------------
-- C4: guard rejections.
-- ---------------------------------------------------------------------------

/-- C4 counterexample: a submit_answer attempted while the room is in LOBBY
(outside its QUESTION guard) is dropped silently — no event at all is emitted
to the caller, contradicting the claim that every guard rejection signals an
advisory message.  (The store is indeed untouched.) -/
theorem c4_counterexample :
    roomL.state = RoomState.LOBBY ∧
    (submit_answer (fun _ => true) cfgL "s1"
      { pin := some "111111", option := some 1, player_token := some "P" } 5).2 = [] ∧
    (submit_answer (fun _ => true) cfgL "s1"
      { pin := some "111111", option := some 1, player_token := some "P" } 5).1.store
      = cfgL.store := by
  exact ⟨rfl, by decide, by decide⟩

/-- C4 amended: start_game and next_question reject an out-of-guard room as a
no-op with an explicit advisory event; submit_answer outside QUESTION is also
a no-op on the store but is dropped silently, emitting nothing. -/
theorem c4_state_guards :
    (∀ (c : Config) (sid : String) (d : HostData) (now : Time) (room : Room),
       (verify_host_and_get_room c.store c.idx sid d).1 = some room →
       require_room_state room [RoomState.LOBBY] = false →
       start_game c sid d now = (c, [Event.error_msg "start_game allowed only in LOBBY"])) ∧
    (∀ (c : Config) (sid : String) (d : HostData) (now : Time) (room : Room),
       (verify_host_and_get_room c.store c.idx sid d).1 = some room →
       require_room_state room [RoomState.RESULTS] = false →
       next_question c sid d now
         = (c, [Event.error_msg "next_question allowed only in RESULTS"])) ∧
    (∀ (uuidOk : String → Bool) (c : Config) (sid : String) (d : SubmitData)
       (now : Time) (pin : String) (room : Room),
       d.pin = some pin →
       get_room_by_pin c.store pin = some room →
       require_room_state room [RoomState.QUESTION] = false →
       (submit_answer uuidOk c sid d now).1.store = c.store ∧
       (submit_answer uuidOk c sid d now).2 = []) := by
  refine ⟨?_, ?_, ?_⟩
  · intro c sid d now room h hguard
    have hv : verify_host_and_get_room c.store c.idx sid d
        = (some room, (verify_host_and_get_room c.store c.idx sid d).2) := by
      rw [← h]
    unfold start_game
    rw [hv]
    dsimp only
    rw [if_pos (by simp [hguard])]
  · intro c sid d now room h hguard
    have hv : verify_host_and_get_room c.store c.idx sid d
        = (some room, (verify_host_and_get_room c.store c.idx sid d).2) := by
      rw [← h]
    unfold next_question
    rw [hv]
    dsimp only
    rw [if_pos (by simp [hguard])]
  · intro uuidOk c sid d now pin room hpin hroom hguard
    refine ⟨?_, events_submit uuidOk c sid d now⟩
    rcases submit_answer_cases uuidOk c sid d now with hsame |
      ⟨pin2, opt, tok, room2, meta, ea, hpin2, _, _, hroom2, hstate, _, _, _, _, _, _, _⟩
    · exact hsame
    · rw [hpin] at hpin2
      injection hpin2 with hpe
      rw [← hpe] at hroom2
      rw [hroom] at hroom2
      injection hroom2 with hre
      rw [← hre] at hstate
      rw [require_single.mpr hstate] at hguard
      exact absurd hguard (by simp)

/-- Room roomQ with its host socket registered (token matching). -/
def cfgHostQ : Config :=
  { store := { rooms := [roomQ], players := [playerA], answers := [] }
    idx := [("h1", { pin := "111111", role := "host", token := "H" })]
    rate := [] }

/-- Witness for c4_state_guards: host actions on a QUESTION-state room are
advisory no-ops; submit on a LOBBY room is a silent no-op. -/
theorem c4_state_guards_witness :
    ((verify_host_and_get_room cfgHostQ.store cfgHostQ.idx "h1"
        { pin := some "111111", host_token := some "H" }).1 = some roomQ ∧
     require_room_state roomQ [RoomState.LOBBY] = false ∧
     start_game cfgHostQ "h1" { pin := some "111111", host_token := some "H" } 5
       = (cfgHostQ, [Event.error_msg "start_game allowed only in LOBBY"])) ∧
    (require_room_state roomQ [RoomState.RESULTS] = false ∧
     next_question cfgHostQ "h1" { pin := some "111111", host_token := some "H" } 5
       = (cfgHostQ, [Event.error_msg "next_question allowed only in RESULTS"])) ∧
    (require_room_state roomL [RoomState.QUESTION] = false ∧
     (submit_answer (fun _ => true) cfgL "s1"
        { pin := some "111111", option := some 1, player_token := some "P" } 5).1.store
       = cfgL.store ∧
     (submit_answer (fun _ => true) cfgL "s1"
        { pin := some "111111", option := some 1, player_token := some "P" } 5).2 = []) :=
  ⟨⟨by decide, by decide,
    c4_state_guards.1 cfgHostQ "h1" { pin := some "111111", host_token := some "H" } 5
      roomQ (by decide) (by decide)⟩,
   ⟨by decide,
    c4_state_guards.2.1 cfgHostQ "h1" { pin := some "111111", host_token := some "H" } 5
      roomQ (by decide) (by decide)⟩,
   ⟨by decide,
    (c4_state_guards.2.2 (fun _ => true) cfgL "s1"
      { pin := some "111111", option := some 1, player_token := some "P" } 5
      "111111" roomL rfl (by decide) (by decide)).1,
    (c4_state_guards.2.2 (fun _ => true) cfgL "s1"
      { pin := some "111111", option := some 1, player_token := some "P" } 5
      "111111" roomL rfl (by decide) (by decide)).2⟩⟩

-- ---------------------------------------------------------------------------
-- C5: host authorization.
-- ---------------------------------------------------------------------------

/-- A LOBBY room whose host secret is AAAA. -/
def roomL5 : Room :=
  { id := 1, pin := "222222", host_token := "AAAA", state := RoomState.LOBBY,
    current_question_index := -1, question_started_at := none,
    question_ends_at := none, host_connected := true,
    host_disconnected_at := none, created_at := 0, last_activity_at := 0,
    closed_at := none }

/-- Config where socket s1 is registered as host of pin 222222 but with a
DIFFERENT token (BBBB) than the room's stored secret. -/
def cfg5 : Config :=
  { store := { rooms := [roomL5], players := [], answers := [] }
    idx := [("s1", { pin := "222222", role := "host", token := "BBBB" })]
    rate := [] }

/-- C5 counterexample: start_game succeeds (the store mutates) although the
calling connection is registered with token BBBB while presenting the room's
secret AAAA — the Identity Registry check compares only role and pin, not the
secret, so the claimed exact role/pin/secret triple requirement is false. -/
theorem c5_counterexample :
    idxLookup cfg5.idx "s1"
      = some { pin := "222222", role := "host", token := "BBBB" } ∧
    roomL5.host_token = "AAAA" ∧
    ("BBBB" : String) ≠ "AAAA" ∧
    (start_game cfg5 "s1" { pin := some "222222", host_token := some "AAAA" } 5).1.store
      ≠ cfg5.store := by
  exact ⟨by decide, rfl, by decide, by decide⟩

/-- C5 amended: a host action (start_game, next_question) can mutate the
store only when the presented secret matches the room row and the calling
connection is registered as host for that pin — the registered token is NOT
compared; a player answer mutates the store only when the registered triple
matches exactly, token included. -/
theorem c5_host_auth :
    (∀ (c : Config) (sid : String) (d : HostData) (now : Time),
       (start_game c sid d now).1.store ≠ c.store →
       ∃ pin tok meta room, d.pin = some pin ∧ d.host_token = some tok ∧
         get_room_by_pin c.store pin = some room ∧ room.host_token = tok ∧
         idxLookup c.idx sid = some meta ∧ meta.role = "host" ∧ meta.pin = pin) ∧
    (∀ (c : Config) (sid : String) (d : HostData) (now : Time),
       (next_question c sid d now).1.store ≠ c.store →
       ∃ pin tok meta room, d.pin = some pin ∧ d.host_token = some tok ∧
         get_room_by_pin c.store pin = some room ∧ room.host_token = tok ∧
         idxLookup c.idx sid = some meta ∧ meta.role = "host" ∧ meta.pin = pin) ∧
    (∀ (uuidOk : String → Bool) (c : Config) (sid : String) (d : SubmitData)
       (now : Time),
       (submit_answer uuidOk c sid d now).1.store ≠ c.store →
       ∃ pin opt tok meta room, d.pin = some pin ∧ d.option = some opt ∧
         d.player_token = some tok ∧ get_room_by_pin c.store pin = some room ∧
         idxLookup c.idx sid = some meta ∧ meta.role = "player" ∧
         meta.pin = pin ∧ meta.token = tok) := by
  refine ⟨?_, ?_, ?_⟩
  · intro c sid d now h
    rcases start_game_cases c sid d now with hsame | ⟨room, hv, _, _⟩
    · exact absurd (congrArg Config.store hsame) h
    · rcases verify_cases c.store c.idx sid d with hnone | ⟨pin, tok, meta, room2,
        hpin, htok, hroom, hsec, hmeta, hrole, hmpin, _⟩
      · rw [hv] at hnone; exact absurd hnone (by simp)
      · exact ⟨pin, tok, meta, room2, hpin, htok, hroom, hsec, hmeta, hrole, hmpin⟩
  · intro c sid d now h
    rcases next_question_cases c sid d now with hsame | ⟨room, hv, _, _⟩
    · exact absurd (congrArg Config.store hsame) h
    · rcases verify_cases c.store c.idx sid d with hnone | ⟨pin, tok, meta, room2,
        hpin, htok, hroom, hsec, hmeta, hrole, hmpin, _⟩
      · rw [hv] at hnone; exact absurd hnone (by simp)
      · exact ⟨pin, tok, meta, room2, hpin, htok, hroom, hsec, hmeta, hrole, hmpin⟩
  · intro uuidOk c sid d now h
    rcases submit_answer_cases uuidOk c sid d now with hsame |
      ⟨pin, opt, tok, room, meta, ea, hpin, hopt, htok, hroom, _, hmeta, hrole,
       hmpin, hmtok, _, _, _⟩
    · exact absurd hsame h
    · exact ⟨pin, opt, tok, meta, room, hpin, hopt, htok, hroom, hmeta, hrole,
        hmpin, hmtok⟩

/-- RESULTS-state room with a properly registered host, used to witness the
next_question part. -/
def roomR5 : Room :=
  { roomL5 with
    pin := "444444"
    state := RoomState.RESULTS
    current_question_index := 0 }

/-- Config for roomR5 with its host registered (matching token). -/
def cfgR5 : Config :=
  { store := { rooms := [roomR5], players := [], answers := [] }
    idx := [("h1", { pin := "444444", role := "host", token := "AAAA" })]
    rate := [] }

/-- Witness for c5_host_auth at concrete mutating calls. -/
theorem c5_host_auth_witness :
    ((start_game cfg5 "s1" { pin := some "222222", host_token := some "AAAA" } 5).1.store
        ≠ cfg5.store ∧
     ∃ pin tok meta room,
       (HostData.mk (some "222222") (some "AAAA")).pin = some pin ∧
       (HostData.mk (some "222222") (some "AAAA")).host_token = some tok ∧
       get_room_by_pin cfg5.store pin = some room ∧ room.host_token = tok ∧
       idxLookup cfg5.idx "s1" = some meta ∧ meta.role = "host" ∧ meta.pin = pin) ∧
    ((next_question cfgR5 "h1" { pin := some "444444", host_token := some "AAAA" } 5).1.store
        ≠ cfgR5.store ∧
     ∃ pin tok meta room,
       (HostData.mk (some "444444") (some "AAAA")).pin = some pin ∧
       (HostData.mk (some "444444") (some "AAAA")).host_token = some tok ∧
       get_room_by_pin cfgR5.store pin = some room ∧ room.host_token = tok ∧
       idxLookup cfgR5.idx "h1" = some meta ∧ meta.role = "host" ∧ meta.pin = pin) ∧
    ((submit_answer (fun _ => true) cfgQ "s1"
        { pin := some "111111", option := some 1, player_token := some "P" } 5).1.store
        ≠ cfgQ.store ∧
     ∃ pin opt tok meta room,
       (SubmitData.mk (some "111111") (some 1) (some "P")).pin = some pin ∧
       (SubmitData.mk (some "111111") (some 1) (some "P")).option = some opt ∧
       (SubmitData.mk (some "111111") (some 1) (some "P")).player_token = some tok ∧
       get_room_by_pin cfgQ.store pin = some room ∧
       idxLookup cfgQ.idx "s1" = some meta ∧ meta.role = "player" ∧
       meta.pin = pin ∧ meta.token = tok) :=
  ⟨⟨by decide, c5_host_auth.1 cfg5 "s1"
      { pin := some "222222", host_token := some "AAAA" } 5 (by decide)⟩,
   ⟨by decide, c5_host_auth.2.1 cfgR5 "h1"
      { pin := some "444444", host_token := some "AAAA" } 5 (by decide)⟩,
   ⟨by decide, c5_host_auth.2.2 (fun _ => true) cfgQ "s1"
      { pin := some "111111", option := some 1, player_token := some "P" } 5 (by decide)⟩⟩

-- ---------------------------------------------------------------------------
-- C6: reconnection frame effect.
-- ---------------------------------------------------------------------------

/-- All room fields except host liveness (host_connected,
host_disconnected_at) and the activity timestamp. -/
def roomFrame (r : Room) :
    Nat × String × String × RoomState × Int × Option Time × Option Time × Time × Option Time :=
  (r.id, r.pin, r.host_token, r.state, r.current_question_index,
   r.question_started_at, r.question_ends_at, r.created_at, r.closed_at)

/-- roomFrame plus the host liveness fields (player reconnection must leave
these too untouched). -/
def roomFrameP (r : Room) :=
  (roomFrame r, r.host_connected, r.host_disconnected_at)

/-- All player fields except the liveness pair (connected, last_seen_at). -/
def playerFrame (p : Player) : Nat × Nat × String × String × Int × Time :=
  (p.id, p.room_id, p.player_token, p.name, p.score, p.created_at)

theorem players_touch (s : Store) (rid : Nat) (now : Time) :
    (touch_room_activity s rid now).players = s.players := rfl

theorem frameP_touch (s : Store) (rid : Nat) (now : Time) :
    ((touch_room_activity s rid now).rooms.map roomFrameP) = s.rooms.map roomFrameP := by
  unfold touch_room_activity updateRoomById
  dsimp only
  rw [List.map_map]
  refine List.map_congr_left (fun r _ => ?_)
  by_cases h : r.id = rid
  · simp [Function.comp, h, roomFrameP, roomFrame]
  · simp [Function.comp, h]

theorem frame_host_reconnect_update (s : Store) (rid : Nat) (now : Time) :
    ((updateRoomById s rid (fun r =>
        { r with host_connected := true, host_disconnected_at := none,
                 last_activity_at := now })).rooms.map roomFrame)
      = s.rooms.map roomFrame := by
  unfold updateRoomById
  dsimp only
  rw [List.map_map]
  refine List.map_congr_left (fun r _ => ?_)
  by_cases h : r.id = rid
  · simp [Function.comp, h, roomFrame]
  · simp [Function.comp, h]

theorem playerFrame_connect_update (ps : List Player) (pid : Nat) (now : Time) :
    ((ps.map (fun p =>
        if p.id = pid then { p with connected := true, last_seen_at := now } else p)).map
      playerFrame) = ps.map playerFrame := by
  rw [List.map_map]
  refine List.map_congr_left (fun p _ => ?_)
  by_cases h : p.id = pid
  · simp [Function.comp, h, playerFrame]
  · simp [Function.comp, h]

/-- C6 counterexample: a successful player reconnection DOES mutate a room
field — touch_room_activity bumps rooms.last_activity_at (0 before, 7
after), contradicting the claim that no field of the room record changes. -/
theorem c6_counterexample :
    (cfgQ.store.rooms.map Room.last_activity_at) = [0] ∧
    ((reconnect_player (fun _ => true) cfgQ "s2"
        { pin := some "111111", token := some "P" } 7).1.store.rooms.map
      Room.last_activity_at) = [7] ∧
    ((reconnect_player (fun _ => true) cfgQ "s2"
        { pin := some "111111", token := some "P" } 7).1.store.rooms.map
      Room.last_activity_at) ≠ cfgQ.store.rooms.map Room.last_activity_at := by
  exact ⟨by decide, by decide, by decide⟩

/-- C6 amended: reconnection touches only liveness fields and the room's
last_activity_at timestamp.  Player reconnection preserves every room field
except last_activity_at (state, index, deadlines, pin, secret, created_at,
closed_at and even the host liveness pair are unchanged) and every player
field except the connected/last_seen_at pair; host reconnection preserves
every room field except the host liveness pair and last_activity_at, and
leaves players entirely unchanged; neither touches answers. -/
theorem c6_reconnect_frame :
    (∀ (uuidOk : String → Bool) (c : Config) (sid : String) (d : ReconnectData)
       (now : Time),
       ((reconnect_player uuidOk c sid d now).1.store.rooms.map roomFrameP)
         = c.store.rooms.map roomFrameP ∧
       ((reconnect_player uuidOk c sid d now).1.store.players.map playerFrame)
         = c.store.players.map playerFrame ∧
       (reconnect_player uuidOk c sid d now).1.store.answers = c.store.answers) ∧
    (∀ (uuidOk : String → Bool) (c : Config) (sid : String) (d : ReconnectData)
       (now : Time),
       ((reconnect_host uuidOk c sid d now).1.store.rooms.map roomFrame)
         = c.store.rooms.map roomFrame ∧
       (reconnect_host uuidOk c sid d now).1.store.players = c.store.players ∧
       (reconnect_host uuidOk c sid d now).1.store.answers = c.store.answers) := by
  constructor
  · intro uuidOk c sid d now
    unfold reconnect_player
    try dsimp only
    repeat' split
    all_goals try exact ⟨rfl, rfl, rfl⟩
    refine ⟨?_, ?_, rfl⟩
    · rw [frameP_touch]
    · rw [players_touch]
      exact playerFrame_connect_update _ _ _
  · intro uuidOk c sid d now
    unfold reconnect_host
    try dsimp only
    repeat' split
    all_goals try exact ⟨rfl, rfl, rfl⟩
    refine ⟨?_, rfl, rfl⟩
    rw [frame_host_reconnect_update]

/-- Witness for c3_answer_guard: a live submission that stores an answer, and
answer-row preservation across a finalize invocation. -/
theorem c3_answer_guard_witness :
    ((submit_answer (fun _ => true) cfgQ "s1"
        { pin := some "111111", option := some 1, player_token := some "P" } 5).1.store.answers
      ≠ cfgQ.store.answers) ∧
    (∃ pin room ea,
       (SubmitData.mk (some "111111") (some 1) (some "P")).pin = some pin ∧
       get_room_by_pin cfgQ.store pin = some room ∧
       room.state = RoomState.QUESTION ∧ room.question_ends_at = some ea ∧
       (5 : Time) ≤ ea) ∧
    ({ id := 1, room_id := 1, player_token := "P", question_index := 0,
       option_index := 1, answered_at := 5 } : Answer) ∈ c10Store.answers ∧
    ({ id := 1, room_id := 1, player_token := "P", question_index := 0,
       option_index := 1, answered_at := 5 } : Answer) ∈
      ((applyOp (fun _ => true) { store := c10Store, idx := [], rate := [] }
        (Op.opFinish "333333" 20)).1).store.answers :=
  ⟨by decide,
   c3_answer_guard.1 (fun _ => true) cfgQ "s1"
     { pin := some "111111", option := some 1, player_token := some "P" } 5 (by decide),
   by decide,
   c3_answer_guard.2.1 (fun _ => true) { store := c10Store, idx := [], rate := [] }
     (Op.opFinish "333333" 20) _ (by decide)⟩

-- ---------------------------------------------------------------------------
-- C9 witness fixtures.
-- ---------------------------------------------------------------------------

/-- An open room with pin 777777. -/
def c9OpenRoom : Room :=
  { id := 2, pin := "777777", host_token := "HT3", state := RoomState.LOBBY,
    current_question_index := -1, question_started_at := none,
    question_ends_at := none, host_connected := true,
    host_disconnected_at := none, created_at := 0, last_activity_at := 0,
    closed_at := none }

/-- Store holding the open c9OpenRoom. -/
def c9OpenStore : Store := { rooms := [c9OpenRoom], players := [], answers := [] }

/-- Witness for the quantified conjunct of c9_pin_reuse_bug: a successfully
generated pin differs from the pin of every open room. -/
theorem c9_pin_reuse_bug_witness :
    generate_unique_pin c9OpenStore (fun _ => "888888") = Except.ok "888888" ∧
    c9OpenRoom ∈ c9OpenStore.rooms ∧
    c9OpenRoom.closed_at = none ∧
    c9OpenRoom.pin ≠ "888888" :=
  ⟨by rfl, by decide, rfl,
   c9_pin_reuse_bug.2.2.2.2 c9OpenStore (fun _ => "888888") "888888" (by rfl)
     c9OpenRoom (by decide) rfl⟩

-- ---------------------------------------------------------------------------
-- C1: atomic timeout finalization.
-- ---------------------------------------------------------------------------

/-- No room with this id is (any longer) in state QUESTION. -/
def noQuestionRoom (l : List Room) (rid : Nat) : Prop :=
  ∀ r ∈ l, r.id = rid → r.state ≠ RoomState.QUESTION

theorem lockReturning_none_of {s : Store} {rid : Nat}
    (h : noQuestionRoom s.rooms rid) : lockReturning s rid = none := by
  unfold lockReturning
  rw [List.find?_eq_none]
  intro r hr
  simp only [decide_eq_true_eq]
  rintro ⟨hid, hst⟩
  exact h r hr hid hst

theorem lockRows_noQuestion_self (s : Store) (rid : Nat) (now : Time) :
    noQuestionRoom (lockRows s rid now).rooms rid := by
  intro r2 hr2 hid
  unfold lockRows at hr2
  dsimp only at hr2
  rcases List.mem_map.mp hr2 with ⟨r, hr, hrr⟩
  by_cases hc : r.id = rid ∧ r.state = RoomState.QUESTION
  · rw [if_pos hc] at hrr
    rw [← hrr]
    simp
  · rw [if_neg hc] at hrr
    rw [← hrr] at hid ⊢
    intro hst
    exact hc ⟨hid, hst⟩

/-- Shape lemma for finish_question_if_due: either the whole call is the
no-effect result, or the conditional write fired — and then the resulting
rooms table is exactly the conditional write applied to the write-time
store. -/
theorem finish_shape (pin : String) (sRead sWrite : Store) (now : Time) :
    finish_question_if_due pin sRead sWrite now
      = { store := sWrite, events := [], locked := false, crashed := false } ∨
    ((finish_question_if_due pin sRead sWrite now).locked = true ∧
     ∃ room, get_room_by_pin sRead pin = some room ∧
       (lockReturning sWrite room.id).isSome = true ∧
       (finish_question_if_due pin sRead sWrite now).store.rooms
         = (lockRows sWrite room.id now).rooms) := by
  unfold finish_question_if_due
  try dsimp only
  repeat' split
  all_goals try (left; rfl)
  · rename_i xr room hroom hst xe ea hea hle xl lr hlock xq hq
    right
    exact ⟨rfl, room, hroom, by rw [hlock]; rfl, rfl⟩
  · rename_i xr room hroom hst xe ea hea hle xl lr hlock xq q hq hcrash
    right
    exact ⟨rfl, room, hroom, by rw [hlock]; rfl, rfl⟩
  · rename_i xr room hroom hst xe ea hea hle xl lr hlock xq q hq hcrash
    right
    exact ⟨rfl, room, hroom, by rw [hlock]; rfl, rfl⟩

theorem finish_not_locked {pin : String} {sRead sWrite : Store} {now : Time}
    (h : (finish_question_if_due pin sRead sWrite now).locked = false) :
    finish_question_if_due pin sRead sWrite now
      = { store := sWrite, events := [], locked := false, crashed := false } := by
  rcases finish_shape pin sRead sWrite now with heq | ⟨hl, _⟩
  · exact heq
  · rw [h] at hl
    exact absurd hl (by simp)

theorem finish_locked_inv {pin : String} {sRead sWrite : Store} {now : Time}
    (h : (finish_question_if_due pin sRead sWrite now).locked = true) :
    ∃ room, get_room_by_pin sRead pin = some room ∧
      (lockReturning sWrite room.id).isSome = true ∧
      (finish_question_if_due pin sRead sWrite now).store.rooms
        = (lockRows sWrite room.id now).rooms := by
  rcases finish_shape pin sRead sWrite now with heq | ⟨_, hex⟩
  · rw [heq] at h
    exact absurd h (by simp)
  · exact hex

theorem runFinalizes_zero (pin : String) (rid : Nat) :
    ∀ (attempts : List (Store × Time)) (s : Store),
      noQuestionRoom s.rooms rid →
      (∀ a ∈ attempts, ∀ room, get_room_by_pin a.1 pin = some room → room.id = rid) →
      (runFinalizes pin attempts s).2 = 0 := by
  intro attempts
  induction attempts with
  | nil => intro s _ _; rfl
  | cons a rest ih =>
    intro s hnq hres
    have hlocked : (finish_question_if_due pin a.1 s a.2).locked = false := by
      by_contra hl
      have hl2 : (finish_question_if_due pin a.1 s a.2).locked = true := by
        revert hl
        cases (finish_question_if_due pin a.1 s a.2).locked <;> simp
      rcases finish_locked_inv hl2 with ⟨room, hroom, hsome, _⟩
      have hid := hres a (List.mem_cons_self a rest) room hroom
      rw [hid, lockReturning_none_of hnq] at hsome
      exact absurd hsome (by simp)
    have heq := finish_not_locked hlocked
    show (runFinalizes pin (a :: rest) s).2 = 0
    simp only [runFinalizes, heq]
    rw [ih s hnq (fun b hb => hres b (List.mem_cons_of_mem _ hb))]
    simp

theorem runFinalizes_le_one (pin : String) (rid : Nat) :
    ∀ (attempts : List (Store × Time)) (s : Store),
      (∀ a ∈ attempts, ∀ room, get_room_by_pin a.1 pin = some room → room.id = rid) →
      (runFinalizes pin attempts s).2 ≤ 1 := by
  intro attempts
  induction attempts with
  | nil => intro s _; simp [runFinalizes]
  | cons a rest ih =>
    intro s hres
    by_cases hl : (finish_question_if_due pin a.1 s a.2).locked = true
    · rcases finish_locked_inv hl with ⟨room, hroom, _, hrooms⟩
      have hid := hres a (List.mem_cons_self a rest) room hroom
      have hnq : noQuestionRoom (finish_question_if_due pin a.1 s a.2).store.rooms rid := by
        rw [hrooms, hid]
        exact lockRows_noQuestion_self _ _ _
      have hrest := runFinalizes_zero pin rid rest _ hnq
        (fun b hb => hres b (List.mem_cons_of_mem _ hb))
      simp only [runFinalizes, hl, hrest, if_true]
      omega
    · have hl2 : (finish_question_if_due pin a.1 s a.2).locked = false := by
        revert hl
        cases (finish_question_if_due pin a.1 s a.2).locked <;> simp
      have heq := finish_not_locked hl2
      simp only [runFinalizes, heq]
      have hub := ih s (fun b hb => hres b (List.mem_cons_of_mem _ hb))
      simpa using hub

/-- C1: finalize is gated by the conditional QUESTION→RESULTS write.
(1) An invocation that reaches the conditional write (room read in QUESTION
with an elapsed deadline) but whose write affects no row — the stored state
was no longer QUESTION — returns the write-time store untouched and emits
nothing: no score update, no question_results.  (2) More generally, whenever
the conditional write did not fire, the call has no effect at all.  (3) Among
any number of sequential finalize attempts against the same room id, at most
one acquires the conditional write, hence at most one runs scoring and
broadcast. -/
theorem c1_finalize_atomic :
    (∀ (pin : String) (sRead sWrite : Store) (now : Time) (room : Room) (ea : Time),
       get_room_by_pin sRead pin = some room →
       room.state = RoomState.QUESTION →
       room.question_ends_at = some ea →
       ea < now →
       lockReturning sWrite room.id = none →
       finish_question_if_due pin sRead sWrite now
         = { store := sWrite, events := [], locked := false, crashed := false }) ∧
    (∀ (pin : String) (sRead sWrite : Store) (now : Time),
       (finish_question_if_due pin sRead sWrite now).locked = false →
       finish_question_if_due pin sRead sWrite now
         = { store := sWrite, events := [], locked := false, crashed := false }) ∧
    (∀ (pin : String) (rid : Nat) (attempts : List (Store × Time)) (s0 : Store),
       (∀ a ∈ attempts, ∀ room, get_room_by_pin a.1 pin = some room → room.id = rid) →
       (runFinalizes pin attempts s0).2 ≤ 1) := by
  refine ⟨?_, ?_, ?_⟩
  · intro pin sRead sWrite now room ea hroom hst hea hlt hlock
    unfold finish_question_if_due
    rw [hroom]
    dsimp only
    rw [if_neg (not_not_intro (require_single.mpr hst)), hea]
    dsimp only
    rw [if_neg (not_le.mpr hlt), hlock]
  · intro pin sRead sWrite now h
    exact finish_not_locked h
  · intro pin rid attempts s0 hres
    exact runFinalizes_le_one pin rid attempts s0 hres

/-- The RESULTS-state twin of roomQ: the state another executor left behind
after winning the finalize race. -/
def roomQdone : Room := { roomQ with state := RoomState.RESULTS }

/-- Store for the finalize-race loser: the room is already in RESULTS. -/
def sWdone : Store := { rooms := [roomQdone], players := [], answers := [] }

/-- The read snapshot: the room still in QUESTION, past its deadline. -/
def sRq : Store := { rooms := [roomQ], players := [], answers := [] }

/-- Witness for c1_finalize_atomic: a loser invocation is a no-op, and two
sequential attempts on the same overdue room lock at most once. -/
theorem c1_finalize_atomic_witness :
    (finish_question_if_due "111111" sRq sWdone 11
      = { store := sWdone, events := [], locked := false, crashed := false }) ∧
    (runFinalizes "111111" [(sRq, 11), (sRq, 12)] sRq).2 ≤ 1 :=
  ⟨c1_finalize_atomic.1 "111111" sRq sWdone 11 roomQ 10 (by decide) rfl rfl
     (by decide) (by decide),
   c1_finalize_atomic.2.2 "111111" 1 [(sRq, 11), (sRq, 12)] sRq (by
     intro a ha room h
     have hv : get_room_by_pin sRq "111111" = some roomQ := by decide
     rcases List.mem_cons.mp ha with h1 | h2
     · subst h1
       dsimp only at h
       rw [hv] at h
       injection h with he
       rw [← he]
       decide
     · have h3 := List.mem_singleton.mp h2
       subst h3
       dsimp only at h
       rw [hv] at h
       injection h with he
       rw [← he]
       decide)⟩

-- ---------------------------------------------------------------------------
-- C7: hydration round trip.  Invariant: the room addressed by pin p is still
-- mid-QUESTION with unchanged index and deadline.
-- ---------------------------------------------------------------------------

/-- The room resolved by pin p is in QUESTION with index qi and deadline E
(and room ids are pairwise distinct, as the store primary key guarantees). -/
def stillInQuestion (s : Store) (p : String) (rid : Nat) (qi : Int) (E : Time) : Prop :=
  (s.rooms.map Room.id).Nodup ∧
  ∃ r, get_room_by_pin s p = some r ∧ r.id = rid ∧ r.state = RoomState.QUESTION ∧
    r.current_question_index = qi ∧ r.question_ends_at = some E

theorem resolved_pin {s : Store} {pin : String} {room : Room}
    (h : get_room_by_pin s pin = some room) :
    room.pin = pin ∧ room.closed_at = none ∧ room ∈ s.rooms := by
  unfold get_room_by_pin at h
  have h1 := List.find?_some h
  have h2 := List.mem_of_find?_eq_some h
  simp only [decide_eq_true_eq] at h1
  exact ⟨h1.1, h1.2, h2⟩

theorem still_rooms_congr {s s' : Store} {p : String} {rid : Nat} {qi : Int} {E : Time}
    (he : s'.rooms = s.rooms) (h : stillInQuestion s p rid qi E) :
    stillInQuestion s' p rid qi E := by
  unfold stillInQuestion get_room_by_pin at *
  rw [he]
  exact h

/-- Every map with a pointwise core-preserving function (id, pin, closed_at,
state, index, deadline) preserves the invariant. -/
theorem still_map_core {s : Store} {p : String} {rid : Nat} {qi : Int} {E : Time}
    (h : stillInQuestion s p rid qi E) (g : Room → Room)
    (hg : ∀ r, (g r).id = r.id ∧ (g r).pin = r.pin ∧ (g r).closed_at = r.closed_at ∧
      (g r).state = r.state ∧ (g r).current_question_index = r.current_question_index ∧
      (g r).question_ends_at = r.question_ends_at) :
    stillInQuestion { s with rooms := s.rooms.map g } p rid qi E := by
  obtain ⟨hnd, r, hfind, hid, hst, hqi, hE⟩ := h
  constructor
  · show ((s.rooms.map g).map Room.id).Nodup
    rw [List.map_map]
    have he : s.rooms.map (Room.id ∘ g) = s.rooms.map Room.id :=
      List.map_congr_left (fun x _ => (hg x).1)
    rw [he]
    exact hnd
  · refine ⟨g r, ?_, by rw [(hg r).1]; exact hid, by rw [(hg r).2.2.2.1]; exact hst,
      by rw [(hg r).2.2.2.2.1]; exact hqi, by rw [(hg r).2.2.2.2.2]; exact hE⟩
    show (s.rooms.map g).find? _ = some (g r)
    rw [find?_map_mem (fun x _ => by simp [(hg x).2.1, (hg x).2.2.1])]
    unfold get_room_by_pin at hfind
    rw [hfind]
    rfl

/-- Every map that fixes each open room holding pin p, preserves ids and pins
of all rooms, and never reopens a closed room, preserves the invariant. -/
theorem still_map_fix {s : Store} {p : String} {rid : Nat} {qi : Int} {E : Time}
    (h : stillInQuestion s p rid qi E) (g : Room → Room)
    (hid : ∀ r, (g r).id = r.id)
    (hpin : ∀ r, (g r).pin = r.pin)
    (hclosed : ∀ r, (g r).closed_at = none → r.closed_at = none)
    (hfix : ∀ r ∈ s.rooms, r.pin = p → r.closed_at = none → g r = r) :
    stillInQuestion { s with rooms := s.rooms.map g } p rid qi E := by
  obtain ⟨hnd, r, hfind, hid0, hst, hqi, hE⟩ := h
  have hpred : ∀ x ∈ s.rooms,
      (decide ((g x).pin = p ∧ (g x).closed_at = none))
        = decide (x.pin = p ∧ x.closed_at = none) := by
    intro x hx
    by_cases hc : x.pin = p ∧ x.closed_at = none
    · rw [hfix x hx hc.1 hc.2]
    · have hc2 : ¬ ((g x).pin = p ∧ (g x).closed_at = none) := by
        rintro ⟨h1, h2⟩
        rw [hpin x] at h1
        exact hc ⟨h1, hclosed x h2⟩
      simp [hc, hc2]
  have hrp := resolved_pin hfind
  constructor
  · show ((s.rooms.map g).map Room.id).Nodup
    rw [List.map_map]
    have he : s.rooms.map (Room.id ∘ g) = s.rooms.map Room.id :=
      List.map_congr_left (fun x _ => hid x)
    rw [he]
    exact hnd
  · refine ⟨r, ?_, hid0, hst, hqi, hE⟩
    show (s.rooms.map g).find? _ = some r
    rw [find?_map_mem hpred]
    unfold get_room_by_pin at hfind
    rw [hfind]
    show some (g r) = some r
    rw [hfix r hrp.2.2 hrp.1 hrp.2.1]

theorem still_touch {s : Store} {p : String} {rid : Nat} {qi : Int} {E : Time}
    (h : stillInQuestion s p rid qi E) (rid' : Nat) (now : Time) :
    stillInQuestion (touch_room_activity s rid' now) p rid qi E := by
  unfold touch_room_activity updateRoomById
  exact still_map_core h _ (by intro r; by_cases hc : r.id = rid' <;> simp [hc])

theorem room_id_inj {s : Store} (hnd : (s.rooms.map Room.id).Nodup) {x y : Room}
    (hx : x ∈ s.rooms) (hy : y ∈ s.rooms) (he : x.id = y.id) : x = y :=
  List.inj_on_of_nodup_map hnd hx hy he

/-- An updateRoomById targeted at the id of a room whose pin is NOT p
preserves the invariant, whatever the update does besides keeping id and pin
and never clearing closed_at. -/
theorem still_update_other {s : Store} {p : String} {rid : Nat} {qi : Int} {E : Time}
    (h : stillInQuestion s p rid qi E) {pin' : String} {room' : Room}
    (hroom' : get_room_by_pin s pin' = some room') (hne : pin' ≠ p)
    (f : Room → Room)
    (hfid : ∀ r, (f r).id = r.id)
    (hfpin : ∀ r, (f r).pin = r.pin)
    (hfclosed : ∀ r, (f r).closed_at = none → r.closed_at = none) :
    stillInQuestion (updateRoomById s room'.id f) p rid qi E := by
  have hnd := h.1
  have hrp := resolved_pin hroom'
  unfold updateRoomById
  refine still_map_fix h _ ?_ ?_ ?_ ?_
  · intro r
    by_cases hc : r.id = room'.id <;> simp [hc, hfid]
  · intro r
    by_cases hc : r.id = room'.id <;> simp [hc, hfpin]
  · intro r
    by_cases hc : r.id = room'.id <;> simp [hc]
    intro hcl
    exact hfclosed r hcl
  · intro r hr hpinr hclr
    have hc : ¬ r.id = room'.id := by
      intro hidr
      have := room_id_inj hnd hr hrp.2.2 hidr
      rw [this] at hpinr
      exact hne (hrp.1 ▸ hpinr)
    simp [hc]

/-- start_question preserves the invariant for every target pin: on our pin
the LOBBY-or-RESULTS guard fails (the room is in QUESTION); on another pin
only that other room is touched. -/
theorem still_start_question {s : Store} {p : String} {rid : Nat} {qi : Int} {E : Time}
    (h : stillInQuestion s p rid qi E) (pin' : String) (now : Time) :
    stillInQuestion (start_question s pin' now).1 p rid qi E := by
  by_cases hp : pin' = p
  · subst hp
    obtain ⟨hnd, r, hfind, hid0, hst, hqi, hE⟩ := h
    have hreq : ¬ require_room_state r [RoomState.LOBBY, RoomState.RESULTS] = true := by
      simp [require_room_state, hst]
    unfold start_question
    rw [hfind]
    dsimp only
    rw [if_pos hreq]
    exact ⟨hnd, r, hfind, hid0, hst, hqi, hE⟩
  · unfold start_question
    cases hroom' : get_room_by_pin s pin' with
    | none => exact h
    | some room' =>
      dsimp only
      by_cases hguard : require_room_state room' [RoomState.LOBBY, RoomState.RESULTS] = true
      · rw [if_neg (not_not_intro hguard)]
        cases hq : questionAt room'.current_question_index with
        | none => exact h
        | some q =>
          dsimp only
          have hs1 : stillInQuestion (updateRoomById s room'.id (fun r =>
              { r with state := RoomState.QUESTION,
                       question_started_at := some now,
                       question_ends_at := some (now + q.duration),
                       last_activity_at := now })) p rid qi E :=
            still_update_other h hroom' hp _ (fun r => rfl) (fun r => rfl)
              (fun r h' => h')
          repeat' split
          all_goals exact hs1
      · rw [if_pos hguard]
        exact h

theorem rooms_insertAnswer (s : Store) (rid : Nat) (tok : String) (qi opt : Int)
    (now : Time) :
    (insertAnswerOnConflictDoNothing s rid tok qi opt now).rooms = s.rooms := by
  unfold insertAnswerOnConflictDoNothing
  split <;> rfl

theorem still_update_core {s : Store} {p : String} {rid : Nat} {qi : Int} {E : Time}
    (h : stillInQuestion s p rid qi E) (rid' : Nat) (f : Room → Room)
    (hf : ∀ r, (f r).id = r.id ∧ (f r).pin = r.pin ∧ (f r).closed_at = r.closed_at ∧
      (f r).state = r.state ∧ (f r).current_question_index = r.current_question_index ∧
      (f r).question_ends_at = r.question_ends_at) :
    stillInQuestion (updateRoomById s rid' f) p rid qi E := by
  unfold updateRoomById
  refine still_map_core h _ (fun r => ?_)
  by_cases hc : r.id = rid'
  · rw [if_pos hc]; exact hf r
  · rw [if_neg hc]; exact ⟨rfl, rfl, rfl, rfl, rfl, rfl⟩

/-- Every handler of the system preserves the mid-QUESTION invariant of a
room, provided any finalize invocation addressed at this room's pin happens
at or before the deadline (the player-reconnect scenario: the question is not
yet overdue). -/
theorem applyOp_still (uuidOk : String → Bool) (c : Config) (op : Op) (p : String)
    (rid : Nat) (qi : Int) (E : Time)
    (h : stillInQuestion c.store p rid qi E)
    (hop : ∀ t, op = Op.opFinish p t → t ≤ E) :
    stillInQuestion ((applyOp uuidOk c op).1).store p rid qi E := by
  cases op with
  | opSubmit sid d now =>
    rcases submit_answer_cases uuidOk c sid d now with hsame |
      ⟨pin, opt, tok, room, meta, ea, _, _, _, _, _, _, _, _, _, _, _, hstore⟩
    · show stillInQuestion (submit_answer uuidOk c sid d now).1.store p rid qi E
      rw [hsame]; exact h
    · show stillInQuestion (submit_answer uuidOk c sid d now).1.store p rid qi E
      rw [hstore]
      exact still_touch (still_rooms_congr (rooms_insertAnswer _ _ _ _ _ _) h) _ _
  | opJoin sid d tok now =>
    show stillInQuestion (join_game c sid d tok now).1.store p rid qi E
    unfold join_game
    dsimp only
    repeat' split
    all_goals try exact h
    exact still_touch (still_rooms_congr rfl h) _ _
  | opReconnectPlayer sid d now =>
    show stillInQuestion (reconnect_player uuidOk c sid d now).1.store p rid qi E
    unfold reconnect_player
    dsimp only
    repeat' split
    all_goals try exact h
    exact still_touch (still_rooms_congr rfl h) _ _
  | opReconnectHost sid d now =>
    show stillInQuestion (reconnect_host uuidOk c sid d now).1.store p rid qi E
    unfold reconnect_host
    dsimp only
    repeat' split
    all_goals try exact h
    exact still_update_core h _ _ (fun r => ⟨rfl, rfl, rfl, rfl, rfl, rfl⟩)
  | opDisconnect sid now =>
    show stillInQuestion (on_disconnect uuidOk c sid now).store p rid qi E
    unfold on_disconnect
    dsimp only
    repeat' split
    all_goals try dsimp only
    all_goals first
      | exact h
      | exact still_update_core h _ _ (fun r => ⟨rfl, rfl, rfl, rfl, rfl, rfl⟩)
  | opStartGame sid d now =>
    rcases start_game_cases c sid d now with hsame | ⟨room, hv, hlobby, heq⟩
    · show stillInQuestion ((start_game c sid d now).1).store p rid qi E
      rw [hsame]; exact h
    · show stillInQuestion ((start_game c sid d now).1).store p rid qi E
      rw [heq]
      rcases verify_cases c.store c.idx sid d with hnone |
        ⟨pin0, tok0, meta0, room2, hpin0, htok0, hroom0, hsec, hmeta0, hrole0, hmpin0, hveq⟩
      · rw [hv] at hnone; exact absurd hnone (by simp)
      · have hr2 : room2 = room := by
          have h12 : (verify_host_and_get_room c.store c.idx sid d).1 = some room2 := by
            rw [hveq]
          rw [hv] at h12
          injection h12 with h13
          exact h13.symm
        rw [hr2] at hroom0
        by_cases hpp : pin0 = p
        · obtain ⟨hnd, r, hfind, hid0, hst, _, _⟩ := h
          rw [hpp, hfind] at hroom0
          injection hroom0 with her
          rw [← her, hst] at hlobby
          exact absurd hlobby (by decide)
        · have hs1 := still_update_other h hroom0 hpp
            (fun r => { r with current_question_index := 0, last_activity_at := now })
            (fun r => rfl) (fun r => rfl) (fun r h' => h')
          exact still_start_question hs1 room.pin now
  | opNextQuestion sid d now =>
    rcases next_question_cases c sid d now with hsame | ⟨room, hv, hres, hor⟩
    · show stillInQuestion ((next_question c sid d now).1).store p rid qi E
      rw [hsame]; exact h
    · rcases verify_cases c.store c.idx sid d with hnone |
        ⟨pin0, tok0, meta0, room2, hpin0, htok0, hroom0, hsec, hmeta0, hrole0, hmpin0, hveq⟩
      · rw [hv] at hnone; exact absurd hnone (by simp)
      · have hr2 : room2 = room := by
          have h12 : (verify_host_and_get_room c.store c.idx sid d).1 = some room2 := by
            rw [hveq]
          rw [hv] at h12
          injection h12 with h13
          exact h13.symm
        rw [hr2] at hroom0
        by_cases hpp : pin0 = p
        · obtain ⟨hnd, r, hfind, hid0, hst, _, _⟩ := h
          rw [hpp, hfind] at hroom0
          injection hroom0 with her
          rw [← her, hst] at hres
          exact absurd hres (by decide)
        · show stillInQuestion ((next_question c sid d now).1).store p rid qi E
          rcases hor with heq | heq
          · rw [heq]
            exact still_update_other h hroom0 hpp
              (fun r => { r with
                state := RoomState.FINISHED
                closed_at := some now
                last_activity_at := now })
              (fun r => rfl) (fun r => rfl) (fun r h' => Option.noConfusion h')
          · rw [heq]
            have hs1 := still_update_other h hroom0 hpp
              (fun r => { r with
                current_question_index := room.current_question_index + 1,
                last_activity_at := now })
              (fun r => rfl) (fun r => rfl) (fun r h' => h')
            exact still_start_question hs1 room.pin now
  | opFinish pin' t =>
    show stillInQuestion (finish_question_if_due pin' c.store c.store t).store p rid qi E
    by_cases hpp : pin' = p
    · subst hpp
      have ht := hop t rfl
      obtain ⟨hnd, r, hfind, hid0, hst, hqi0, hE0⟩ := h
      unfold finish_question_if_due
      rw [hfind]
      dsimp only
      rw [if_neg (not_not_intro (require_single.mpr hst)), hE0]
      dsimp only
      rw [if_pos ht]
      exact ⟨hnd, r, hfind, hid0, hst, hqi0, hE0⟩
    · rcases finish_shape pin' c.store c.store t with heq | ⟨_, room, hroom, _, hrooms⟩
      · rw [heq]; exact h
      · have hlock : stillInQuestion (lockRows c.store room.id t) p rid qi E := by
          unfold lockRows
          refine still_map_fix h _ ?_ ?_ ?_ ?_
          · intro r
            by_cases hc : r.id = room.id ∧ r.state = RoomState.QUESTION <;> simp [hc]
          · intro r
            by_cases hc : r.id = room.id ∧ r.state = RoomState.QUESTION <;> simp [hc]
          · intro r
            by_cases hc : r.id = room.id ∧ r.state = RoomState.QUESTION <;> simp [hc]
          · intro r hr hpinr hclr
            have hrp := resolved_pin hroom
            have hc1 : ¬ r.id = room.id := by
              intro hide
              have hxy := room_id_inj h.1 hr hrp.2.2 hide
              rw [hxy] at hpinr
              exact hpp (hrp.1 ▸ hpinr)
            have hc : ¬ (r.id = room.id ∧ r.state = RoomState.QUESTION) :=
              fun hc => hc1 hc.1
            simp [hc]
        exact still_rooms_congr hrooms hlock

theorem runOps_still (uuidOk : String → Bool) (p : String) (rid : Nat) (qi : Int)
    (E : Time) :
    ∀ (ops : List Op) (c : Config),
      stillInQuestion c.store p rid qi E →
      (∀ t, Op.opFinish p t ∈ ops → t ≤ E) →
      stillInQuestion (runOps uuidOk c ops).store p rid qi E := by
  intro ops
  induction ops with
  | nil => intro c h _; exact h
  | cons op rest ih =>
    intro c h hops
    show stillInQuestion (runOps uuidOk (applyOp uuidOk c op).1 rest).store p rid qi E
    apply ih
    · exact applyOp_still uuidOk c op p rid qi E h
        (fun t ht => hops t (by rw [← ht]; exact List.mem_cons_self op rest))
    · exact fun t ht => hops t (List.mem_cons_of_mem _ ht)

theorem get_room_update (s : Store) (p : String) (rid' : Nat) (f : Room → Room)
    (hfpin : ∀ r, (f r).pin = r.pin) (hfclosed : ∀ r, (f r).closed_at = r.closed_at) :
    get_room_by_pin (updateRoomById s rid' f) p
      = (get_room_by_pin s p).map (fun r => if r.id = rid' then f r else r) := by
  unfold updateRoomById get_room_by_pin
  exact find?_map_mem (fun x _ => by by_cases hc : x.id = rid' <;> simp [hc, hfpin, hfclosed])

theorem nodup_update {s : Store} (hnd : (s.rooms.map Room.id).Nodup) (rid' : Nat)
    (f : Room → Room) (hfid : ∀ r, (f r).id = r.id) :
    ((updateRoomById s rid' f).rooms.map Room.id).Nodup := by
  unfold updateRoomById
  dsimp only
  rw [List.map_map]
  have he : s.rooms.map (Room.id ∘ fun r => if r.id = rid' then f r else r)
      = s.rooms.map Room.id :=
    List.map_congr_left (fun x _ => by by_cases hc : x.id = rid' <;> simp [hc, hfid])
  rw [he]
  exact hnd

/-- If start_question broadcast a question_started event, then the room was
resolved, its index addresses a real question whose text and options are the
broadcast ones, and afterwards the store satisfies the mid-QUESTION invariant
with EXACTLY the broadcast deadline E as the stored question_ends_at. -/
theorem start_question_emits {s : Store} {p : String} {now : Time} {i : Int}
    {txt : String} {opts : List String} {E : Time}
    (hnd : (s.rooms.map Room.id).Nodup)
    (h : (start_question s p now).2 = [Event.question_started i txt opts E]) :
    ∃ room0 q, get_room_by_pin s p = some room0 ∧
      room0.current_question_index = i ∧
      questionAt i = some q ∧ txt = q.text ∧ opts = q.options ∧
      stillInQuestion (start_question s p now).1 p room0.id i E := by
  rcases hsp : start_question s p now with ⟨s1v, evs⟩
  rw [hsp] at h
  dsimp only at h
  unfold start_question at hsp
  split at hsp
  · injection hsp with h1 h2
    rw [← h2] at h
    exact absurd h (by simp)
  rename_i room hroom
  split at hsp
  · injection hsp with h1 h2
    rw [← h2] at h
    exact absurd h (by simp)
  rename_i hguard
  split at hsp
  · injection hsp with h1 h2
    rw [← h2] at h
    exact absurd h (by simp)
  rename_i q hq
  dsimp only at hsp
  split at hsp
  · injection hsp with h1 h2
    rw [← h2] at h
    exact absurd h (by simp)
  rename_i room2 hroom2
  split at hsp
  · injection hsp with h1 h2
    rw [← h2] at h
    exact absurd h (by simp)
  rename_i ea hea
  injection hsp with h1 h2
  rw [← h2] at h
  simp only [List.cons.injEq, and_true, Event.question_started.injEq] at h
  obtain ⟨hi, htxt, hopts, hE⟩ := h
  rw [get_room_update s p room.id
      (fun r => { r with
        state := RoomState.QUESTION
        question_started_at := some now
        question_ends_at := some (now + q.duration)
        last_activity_at := now })
      (fun r => rfl) (fun r => rfl), hroom] at hroom2
  dsimp only [Option.map] at hroom2
  rw [if_pos rfl] at hroom2
  injection hroom2 with hr2
  refine ⟨room, q, hroom, hi, by rw [← hi]; exact hq, htxt.symm, hopts.symm, ?_⟩
  have hstill : stillInQuestion (updateRoomById s room.id
      (fun r => { r with
        state := RoomState.QUESTION
        question_started_at := some now
        question_ends_at := some (now + q.duration)
        last_activity_at := now })) p room.id i E := by
    refine ⟨nodup_update hnd room.id _ (fun r => rfl), room2, ?_, ?_, ?_, ?_, ?_⟩
    · rw [get_room_update s p room.id
          (fun r => { r with
            state := RoomState.QUESTION
            question_started_at := some now
            question_ends_at := some (now + q.duration)
            last_activity_at := now })
          (fun r => rfl) (fun r => rfl), hroom]
      dsimp only [Option.map]
      rw [if_pos rfl, hr2]
    · rw [← hr2]
    · rw [← hr2]
    · rw [← hr2]
      exact hi
    · rw [← hr2, ← hE]
      rw [← hr2] at hea
      exact hea
  dsimp only
  rw [← h1]
  exact hstill

/-- C7: a player who reconnects mid-QUESTION receives in the hydration
payload the exact ends_at value that the question_started broadcast carried.
The interleaving between the broadcast and the reconnection may contain any
sequence of handler invocations — submissions, joins, reconnections,
disconnections, host actions (whose guards reject them) and watchdog
finalize sweeps at times up to the deadline. -/
theorem c7_hydration_roundtrip
    (uuidOk : String → Bool) (s0 : Store) (idx0 : SocketIndex) (rate0 : RateState)
    (p : String) (now0 : Time) (i : Int) (txt : String) (opts : List String)
    (E : Time) (ops : List Op) (sid tok : String) (now1 : Time)
    (hnd : (s0.rooms.map Room.id).Nodup)
    (hstart : (start_question s0 p now0).2 = [Event.question_started i txt opts E])
    (hops : ∀ t, Op.opFinish p t ∈ ops → t ≤ E)
    (huuid : uuidOk tok = true)
    (hplayer : ((get_room_by_pin (runOps uuidOk
        { store := (start_question s0 p now0).1, idx := idx0, rate := rate0 } ops).store
          p).bind
        (fun room2 => findPlayer (runOps uuidOk
          { store := (start_question s0 p now0).1, idx := idx0, rate := rate0 } ops).store
          room2.id tok)).isSome = true) :
    ∃ payload, (reconnect_player uuidOk (runOps uuidOk
        { store := (start_question s0 p now0).1, idx := idx0, rate := rate0 } ops) sid
        { pin := some p, token := some tok } now1).2
      = [Event.reconnected payload] ∧
      payload.state = RoomState.QUESTION ∧
      payload.question = some { text := txt, options := opts, ends_at := E } := by
  obtain ⟨room0, q, hroom0, hidx, hq, htxt, hopts, hstill1⟩ := start_question_emits hnd hstart
  have hstill2 : stillInQuestion (runOps uuidOk
      { store := (start_question s0 p now0).1, idx := idx0, rate := rate0 } ops).store
      p room0.id i E :=
    runOps_still uuidOk p room0.id i E ops _ hstill1 hops
  obtain ⟨hnd2, r2, hfind2, hid2, hst2, hqi2, hE2⟩ := hstill2
  rw [hfind2, Option.some_bind] at hplayer
  rcases Option.isSome_iff_exists.mp hplayer with ⟨player, hfp⟩
  unfold reconnect_player
  dsimp only
  rw [hfind2]
  dsimp only
  rw [if_neg (not_not_intro huuid), hfp]
  dsimp only
  refine ⟨_, rfl, hst2, ?_⟩
  show (mkPlayerPayload _ r2 player).question
      = some { text := txt, options := opts, ends_at := E }
  unfold mkPlayerPayload
  dsimp only
  rw [hE2]
  dsimp only
  rw [if_pos hst2, hqi2, hq]
  dsimp only
  rw [htxt, hopts]

/-- Starting store for the c7 witness: roomL (LOBBY, index 0) plus playerA. -/
def s0w : Store := { rooms := [roomL], players := [playerA], answers := [] }

/-- Interleaving for the c7 witness: a disconnect and a watchdog finalize
sweep before the deadline. -/
def opsW : List Op := [Op.opDisconnect "z" 3, Op.opFinish "111111" 9]

/-- Witness for c7_hydration_roundtrip at a concrete run. -/
theorem c7_hydration_roundtrip_witness :
    (s0w.rooms.map Room.id).Nodup ∧
    (start_question s0w "111111" 0).2
      = [Event.question_started 0 "Скільки буде 2 + 2 ?" ["3", "4", "5", "6"] 15] ∧
    ∃ payload, (reconnect_player (fun _ => true) (runOps (fun _ => true)
        { store := (start_question s0w "111111" 0).1, idx := [], rate := [] } opsW) "s9"
        { pin := some "111111", token := some "P" } 7).2
      = [Event.reconnected payload] ∧
      payload.state = RoomState.QUESTION ∧
      payload.question = some { text := "Скільки буде 2 + 2 ?",
                                options := ["3", "4", "5", "6"], ends_at := 15 } :=
  ⟨by decide, by decide,
   c7_hydration_roundtrip (fun _ => true) s0w [] [] "111111" 0 0
     "Скільки буде 2 + 2 ?" ["3", "4", "5", "6"] 15 opsW "s9" "P" 7
     (by decide) (by decide)
     (by
       intro t ht
       rcases List.mem_cons.mp ht with h1 | h2
       · exact Op.noConfusion h1
       · have h3 := List.mem_singleton.mp h2
         injection h3 with hp he
         rw [he]
         decide)
     rfl
     (by decide)⟩

end LiveQuiz

